import Mathlib

/-!
# echo2 runtime-core: reactivity engine and render pipeline

A shallow embedding of `packages/runtime-core/dist/runtime-core.esm-bundler.js`.
Every definition names the source function it follows and the lines it comes from.

JavaScript values are a closed sum (`Val`); objects, arrays, functions and symbols
are known by identity only.  Mutable module state (`targetMap`, the effect stack,
`currentInstance`, the wrapper caches) is passed explicitly.  Callbacks written by
the application (effect computations, `setup`, `render`, slot functions) are inputs
of the model.
-/

namespace Echo

/-! ## JavaScript values -/

/-- A JavaScript value.  Functions, arrays, plain objects and symbols carry the
identity of the object; the fields of plain objects live in a heap (see `State`). -/
inductive Val
  | undefined
  | null
  | bool (b : Bool)
  | num (n : Int)
  | str (s : String)
  | symbol (n : Nat)
  | func (f : Nat)
  | arr (r : Nat)
  | obj (r : Nat)
  deriving DecidableEq, Repr

/-- The result of `Object.prototype.toString.call(param)`, used by lines 8-22. -/
def toStringTag : Val → String
  | .undefined => "[object Undefined]"
  | .null => "[object Null]"
  | .bool _ => "[object Boolean]"
  | .num _ => "[object Number]"
  | .str _ => "[object String]"
  | .symbol _ => "[object Symbol]"
  | .func _ => "[object Function]"
  | .arr _ => "[object Array]"
  | .obj _ => "[object Object]"

/-- Source lines 8-10. -/
def isObject (param : Val) : Bool := toStringTag param == "[object Object]"

/-- Source lines 12-14. -/
def isString (param : Val) : Bool := toStringTag param == "[object String]"

/-- Source lines 16-18. -/
def isArray (param : Val) : Bool := toStringTag param == "[object Array]"

/-- Source lines 20-22. -/
def isFunction (param : Val) : Bool := toStringTag param == "[object Function]"

/-- JavaScript truthiness (`ToBoolean`) of a value. -/
def truthy : Val → Bool
  | .undefined => false
  | .null => false
  | .bool b => b
  | .num n => n != 0
  | .str s => s != ""
  | .symbol _ => true
  | .func _ => true
  | .arr _ => true
  | .obj _ => true

/-- The errors the runtime can raise: the two `throw new Error` sites of the source
(lines 175 and 202), the `TypeError` JavaScript raises on a call of a non-function or
a property access on `undefined`/`null`, the `ReferenceError` it raises on the use of
an identifier that has no binding, and errors thrown by application callbacks. -/
inductive Err
  | invalidTarget
  | readOnly
  | typeError
  | referenceError
  | user (tag : Nat)
  deriving DecidableEq, Repr

/-- A plain mapping from string keys to values, in enumeration order. -/
abbrev Fields := List (String × Val)

/-- Property read `m[key]` on a mapping: the value of the own key, else `undefined`. -/
def Fields.get (m : Fields) (key : String) : Val :=
  match m.find? (fun kv => kv.1 == key) with
  | some kv => kv.2
  | none => .undefined

/-- Property write `m[key] = val` on a mapping. -/
def Fields.set : Fields → String → Val → Fields
  | [], key, val => [(key, val)]
  | (k, v) :: rest, key, val =>
    if k == key then (k, val) :: rest else (k, v) :: Fields.set rest key val

/-- Source lines 24-26. -/
def hasOwnProperty (obj : Fields) (key : String) : Bool :=
  obj.any (fun kv => kv.1 == key)

/-- Source lines 28-30: the regular expression `/^on[A-Za-z]+/` accepts a key that
starts with `on` followed by at least one ASCII letter. -/
def isOn (key : String) : Bool :=
  match key.data with
  | 'o' :: 'n' :: c :: _ => c.isAlpha
  | _ => false

/-! ## Virtual nodes (lines 1-62) -/

namespace ShapeFlags

/-- Source line 2. -/
def ELEMENT : Nat := 1

/-- Source line 3. -/
def STATEFUL_COMPONENT : Nat := 1 <<< 1

/-- Source line 4. -/
def TEXT_CHILD : Nat := 1 <<< 2

/-- Source line 5. -/
def ARRAY_CHILD : Nat := 1 <<< 3

end ShapeFlags

/-- Source line 32: `Symbol('Fragment')`. -/
def Fragment : Val := .symbol 0

/-- Source line 33: `Symbol('Text')`. -/
def Text : Val := .symbol 1

/-- A handle of a node of the display surface. -/
abbrev El := Nat

mutual
/-- The object built by `createVNode` (lines 36-43): `type`, `props`, `children`,
`el` and `shapeFlag`.  `props` is `none` when the argument was omitted; `shapeFlag`
is `none` when it is `undefined`. -/
inductive VNode
  | mk (type : Val) (props : Option Fields) (children : Children) (el : Option El)
      (shapeFlag : Option Nat)
/-- The `children` argument of `createVNode`: omitted, a string, a sequence of
vnodes, a mapping of named slots, or a single vnode. -/
inductive Children
  | undefined
  | text (s : String)
  | array (cs : List VNode)
  | slots (m : List (String × Slot))
  | node (v : VNode)
/-- The value of one named slot: a function of the slot props, a sequence of vnodes
or a single vnode. -/
inductive Slot
  | fn (f : Val → VNode)
  | array (cs : List VNode)
  | node (v : VNode)
end

/-- The field `type` of a vnode. -/
def VNode.type : VNode → Val
  | .mk t _ _ _ _ => t

/-- The field `props` of a vnode. -/
def VNode.props : VNode → Option Fields
  | .mk _ p _ _ _ => p

/-- The field `children` of a vnode. -/
def VNode.children : VNode → Children
  | .mk _ _ c _ _ => c

/-- The field `el` of a vnode. -/
def VNode.el : VNode → Option El
  | .mk _ _ _ e _ => e

/-- The field `shapeFlag` of a vnode. -/
def VNode.shapeFlag : VNode → Option Nat
  | .mk _ _ _ _ f => f

/-- The assignment `vnode.el = el`. -/
def VNode.setEl : VNode → Option El → VNode
  | .mk t p c _ f, e => .mk t p c e f

/-- The result of `Object.prototype.toString.call` on a `children` value. -/
def Children.toStringTag : Children → String
  | .undefined => "[object Undefined]"
  | .text _ => "[object String]"
  | .array _ => "[object Array]"
  | .slots _ => "[object Object]"
  | .node _ => "[object Object]"

/-- Source lines 12-14 on a `children` value. -/
def Children.isString (c : Children) : Bool := c.toStringTag == "[object String]"

/-- Source lines 16-18 on a `children` value. -/
def Children.isArray (c : Children) : Bool := c.toStringTag == "[object Array]"

/-- JavaScript `a | b` where `a` may be `undefined` (which `ToInt32` takes to 0). -/
def jsOr (a : Option Nat) (b : Nat) : Nat := a.getD 0 ||| b

/-- JavaScript `a & b` where `a` may be `undefined`. -/
def jsAnd (a : Option Nat) (b : Nat) : Nat := a.getD 0 &&& b

/-- Source lines 52-58; the result is `undefined` for a type that is neither a plain
object nor a string. -/
def getShapeFlag (type : Val) : Option Nat :=
  if isObject type then some ShapeFlags.STATEFUL_COMPONENT
  else if isString type then some ShapeFlags.ELEMENT
  else none

/-- Source lines 35-50. -/
def createVNode (type : Val) (props : Option Fields) (children : Children) : VNode :=
  let shapeFlag := getShapeFlag type
  if children.isString then
    .mk type props children none (some (jsOr shapeFlag ShapeFlags.TEXT_CHILD))
  else if children.isArray then
    .mk type props children none (some (jsOr shapeFlag ShapeFlags.ARRAY_CHILD))
  else
    .mk type props children none shapeFlag

/-- Source lines 60-62. -/
def createTextVNode (string : String) : VNode :=
  createVNode Text (some []) (.text string)

/-- Source lines 411-413: the bundle's tree builder `h$1`, exported as `h`. -/
def h1 (type : Val) (props : Option Fields) (children : Children) : VNode :=
  createVNode type props children

/-- Whether bit `b` is set in a `shapeFlag`. -/
def hasFlag (shapeFlag : Option Nat) (b : Nat) : Bool := jsAnd shapeFlag b != 0

/-- The four bits of a vnode's `shapeFlag`, in the order ELEMENT,
STATEFUL_COMPONENT, TEXT_CHILD, ARRAY_CHILD. -/
def shapeBits (v : VNode) : Bool × Bool × Bool × Bool :=
  (hasFlag v.shapeFlag ShapeFlags.ELEMENT, hasFlag v.shapeFlag ShapeFlags.STATEFUL_COMPONENT,
   hasFlag v.shapeFlag ShapeFlags.TEXT_CHILD, hasFlag v.shapeFlag ShapeFlags.ARRAY_CHILD)

/-! ## Component instances (lines 227-332, 415-442)

The source's parameter `instance` is written `inst`. -/

/-- The object built by `createComponentInstance` (lines 327-329).  `render` holds
the identity of the definition whose `render` function was bound at line 316, or
`none` while the field is `undefined`.  The `emit` and `proxy` fields are determined
by the instance itself (lines 294 and 330) and carry no data of their own. -/
structure ComponentInstance where
  vnode : VNode
  type : Val
  setupState : Fields
  props : Fields
  slots : List (String × Slot)
  provide : Fields
  parent : Option ComponentInstance
  render : Option Nat

/-- What one call of an application `setup` function does, as far as the runtime can
observe it: the `provide(key, value)` calls it makes, in order, and how it completes
(a thrown error, or the returned mapping, `none` for `undefined`). -/
structure SetupRun where
  provides : List (String × Val)
  result : Except Err (Option Fields)

/-- A component definition object: its optional `setup` and `render` functions.
`setup` sees the instance (through `props`, `emit`, `getCurrentInstance`, `inject`),
`render` sees it through the public-access proxy. -/
structure Component where
  setup : Option (ComponentInstance → SetupRun)
  render : Option (ComponentInstance → VNode)

/-- The operations issued against the display surface. -/
inductive SurfaceOp
  | createElement (tag : Val) (el : El)
  | createTextNode (content : Children) (el : El)
  | setAttribute (el : El) (key : String) (val : Val)
  | addEventListener (el : El) (event : String) (val : Val)
  | setTextContent (el : El) (content : Children)
  | querySelector (selector : String)
  | appendChild (parent : El) (child : El)

/-- A mount container: a lookup string or a surface node. -/
inductive Container
  | selector (s : String)
  | node (el : El)

/-- What the runtime uses of its host: `String.prototype.toLowerCase` and
`document.querySelector` (`none` for `null`). -/
structure Host where
  toLowerCase : String → String
  querySelector : String → Option El

/-- The module state of the render pipeline: the surface operations issued so far,
the next fresh surface handle, `currentInstance` (line 277), and the instances
`mountComponent` has set up, in order, as they stand when `setupComponent` returns. -/
structure RenderState where
  ops : List SurfaceOp
  nextEl : El
  currentInstance : Option ComponentInstance
  mounted : List ComponentInstance

/-- Source lines 227-229. -/
def initComponentProps (inst : ComponentInstance) (props : Option Fields) :
    ComponentInstance :=
  { inst with props := props.getD [] }

/-- The normalisation of one slot value at lines 257-263. -/
def normalizeSlot : Slot → Slot
  | .fn f => .fn f
  | .array cs => .array cs
  | .node v => .array [v]

/-- Source lines 250-266 for `children` that are omitted or a mapping of named
slots.  For the other shapes (`for ... in` over a string, an array or a vnode) the
model leaves `slots` as it is. -/
def initComponentSlots (inst : ComponentInstance) (children : Children) :
    ComponentInstance :=
  match children with
  | .slots m => { inst with slots := m.map (fun kv => (kv.1, normalizeSlot kv.2)) }
  | _ => inst

/-- The read `slots[name]`: the first entry under `name`, if any. -/
def slotGet (slots : List (String × Slot)) (name : String) : Option Slot :=
  (slots.find? (fun kv => kv.1 == name)).map (fun kv => kv.2)

/-- Source lines 268-275.  The identifier `h` of lines 271 and 273 has no binding in
the bundle: the builder is declared as `h$1` (line 411) and bears the name `h` only
in the export list (line 444).  The reference is therefore resolved on the global
object of the host: `globalH` is the function found there under `h`, `none` when the
global object has no such property.  In that case the evaluation of the callee
raises a `ReferenceError` before any argument is evaluated, so before the slot is
called. -/
def renderSlots (globalH : Option (Val → Option Fields → Children → VNode))
    (slots : List (String × Slot)) (name : String) (prop : Val) : Except Err VNode :=
  match slotGet slots name with
  | some (.fn slot) =>
    match globalH with
    | none => .error Err.referenceError
    | some h => .ok (h Fragment (some []) (.array [slot prop]))
  | some (.array cs) =>
    match globalH with
    | none => .error Err.referenceError
    | some h => .ok (h Fragment (some []) (.array cs))
  | some (.node v) =>
    match globalH with
    | none => .error Err.referenceError
    | some h => .ok (h Fragment (some []) (.node v))
  | none =>
    match globalH with
    | none => .error Err.referenceError
    | some h => .ok (h Fragment (some []) .undefined)

/-- Source lines 279-281. -/
def getCurrentInstance (s : RenderState) : Option ComponentInstance :=
  s.currentInstance

/-- Source lines 283-285. -/
def setCurrentInstance (s : RenderState) (inst : Option ComponentInstance) :
    RenderState :=
  { s with currentInstance := inst }

/-- Source lines 427-434. -/
def injectFromParent : ComponentInstance → String → Val
  | ⟨_, _, _, _, _, provide, none, _⟩, key =>
    if truthy (provide.get key) then provide.get key else .null
  | ⟨_, _, _, _, _, provide, some parent, _⟩, key =>
    if truthy (provide.get key) then provide.get key else injectFromParent parent key

/-- Source lines 415-425. -/
def inject (s : RenderState) (key : String) : Val :=
  match getCurrentInstance s with
  | some inst =>
    if truthy (inst.provide.get key) then inst.provide.get key
    else
      match inst.parent with
      | some p => injectFromParent p key
      | none => .null
  | none => .null

/-- Source lines 436-442. -/
def provide (s : RenderState) (key : String) (value : Val) : RenderState :=
  match getCurrentInstance s with
  | some inst =>
    { s with currentInstance := some { inst with provide := inst.provide.set key value } }
  | none => s

/-- Source lines 320-324: the list of calls made, each a function identity with its
argument list, or the `TypeError` of calling a value that is not a function. -/
def emit (inst : ComponentInstance) (event : String) :
    Except Err (List (Nat × List Val)) :=
  let emitAction := inst.props.get event
  if truthy emitAction then
    match emitAction with
    | .func f => .ok [(f, [])]
    | _ => .error Err.typeError
  else .ok []

/-- Source lines 326-332. -/
def createComponentInstance (vnode : VNode) (parent : Option ComponentInstance) :
    ComponentInstance :=
  { vnode := vnode, type := vnode.type, setupState := [], props := [], slots := [],
    provide := [], parent := parent, render := none }

/-- The fixed table of lines 231-234: `$el` and `$slots`. -/
inductive PublicValue
  | undefined
  | val (v : Val)
  | el (e : Option El)
  | slots (m : List (String × Slot))

/-- Source lines 235-248: a read of `key` through the instance's public-access
proxy. -/
def instanceProxyGet (inst : ComponentInstance) (key : String) : PublicValue :=
  if hasOwnProperty inst.setupState key then .val (inst.setupState.get key)
  else if hasOwnProperty inst.props key then .val (inst.props.get key)
  else if key == "$el" then .el inst.vnode.el
  else if key == "$slots" then .slots inst.slots
  else .undefined

/-- The component definition object behind a vnode `type`. -/
def componentOf (defs : Nat → Component) : Val → Component
  | .obj r => defs r
  | _ => { setup := none, render := none }

/-- The identity of the definition object behind a vnode `type`. -/
def componentId : Val → Option Nat
  | .obj r => some r
  | _ => none

/-- Source lines 313-318. -/
def finishComponentSetup (defs : Nat → Component) (inst : ComponentInstance) :
    ComponentInstance :=
  match (componentOf defs inst.type).render with
  | some _ => { inst with render := componentId inst.type }
  | none => inst

/-- Source lines 305-310. -/
def handleSetupResult (defs : Nat → Component) (inst : ComponentInstance)
    (setupResult : Option Fields) : ComponentInstance :=
  match setupResult with
  | some m => finishComponentSetup defs { inst with setupState := m }
  | none => finishComponentSetup defs inst

/-- Source lines 293-302.  The returned instance is the object as the calls left
it; `provide` calls made by `setup` reach it through `currentInstance`.  The wrapper
`shallowReadonly(props)` handed to `setup` is over a plain object, so the call at
line 298 cannot fail; `setup` sees the props through the instance. -/
def setupStatefulComponent (defs : Nat → Component) (s : RenderState)
    (componentInstance : ComponentInstance) :
    Except Err Unit × RenderState × ComponentInstance :=
  match (componentOf defs componentInstance.type).setup with
  | some setup =>
    let s1 := setCurrentInstance s (some componentInstance)
    let run := setup componentInstance
    let s2 := run.provides.foldl (fun st kv => provide st kv.1 kv.2) s1
    let inst := (getCurrentInstance s2).getD componentInstance
    match run.result with
    | .error e => (.error e, s2, inst)
    | .ok setupResult =>
      let s3 := setCurrentInstance s2 none
      (.ok (), s3, handleSetupResult defs inst setupResult)
  | none => (.ok (), s, componentInstance)

/-- Source lines 287-291. -/
def setupComponent (defs : Nat → Component) (s : RenderState)
    (componentInstance : ComponentInstance) :
    Except Err Unit × RenderState × ComponentInstance :=
  let i1 := initComponentSlots componentInstance componentInstance.vnode.children
  let i2 := initComponentProps i1 i1.vnode.props
  setupStatefulComponent defs s i2

/-! ## The patch pipeline (lines 64-90, 334-398) -/

/-- The result of a pipeline step: the error raised, or the `el` the vnode holds
afterwards; `none` from the enclosing `Option` means the fuel ran out. -/
abbrev PatchResult := Option (Except Err (Option El) × RenderState)

/-- Source lines 85-89 and 381-385: append a surface node to the container, which
is looked up first when it is a string. -/
def appendTo (host : Host) (s : RenderState) (container : Container) (el : El) :
    Except Err Unit × RenderState :=
  match container with
  | .selector sel =>
    match host.querySelector sel with
    | some c => (.ok (), { s with ops := s.ops ++ [.querySelector sel, .appendChild c el] })
    | none => (.error Err.typeError, { s with ops := s.ops ++ [.querySelector sel] })
  | .node c => (.ok (), { s with ops := s.ops ++ [.appendChild c el] })

/-- Source lines 69-75: the operation issued for one prop. -/
def propOp (host : Host) (el : El) (kv : String × Val) : SurfaceOp :=
  if isOn kv.1 then
    .addEventListener el (host.toLowerCase (String.mk (kv.1.data.drop 2))) kv.2
  else .setAttribute el kv.1 kv.2

/-- Source lines 378-386. -/
def processTextNode (host : Host) (s : RenderState) (vnode : VNode)
    (container : Container) : Except Err (Option El) × RenderState :=
  let textNode := s.nextEl
  let s1 : RenderState :=
    { s with ops := s.ops ++ [.createTextNode vnode.children textNode], nextEl := s.nextEl + 1 }
  match appendTo host s1 container textNode with
  | (.ok (), s2) => (.ok (some textNode), s2)
  | (.error e, s2) => (.error e, s2)

mutual
/-- Source lines 351-370. -/
def patch (host : Host) (defs : Nat → Component) :
    Nat → RenderState → VNode → Container → Option ComponentInstance → PatchResult
  | 0, _, _, _, _ => none
  | n + 1, s, vnode, container, parent =>
    if vnode.type = Fragment then processFragment host defs n s vnode container
    else if vnode.type = Text then some (processTextNode host s vnode container)
    else if jsAnd vnode.shapeFlag ShapeFlags.ELEMENT != 0 then
      processElement host defs n s vnode container
    else if jsAnd vnode.shapeFlag ShapeFlags.STATEFUL_COMPONENT != 0 then
      processComponent host defs n s vnode container parent
    else some (.ok vnode.el, s)
/-- The loops `children.forEach(child => patch(child, container))` of lines 80-82
and 373-375: no parent instance is passed on. -/
def patchEach (host : Host) (defs : Nat → Component) :
    Nat → RenderState → List VNode → Container → PatchResult
  | 0, _, _, _ => none
  | _ + 1, s, [], _ => some (.ok none, s)
  | n + 1, s, child :: rest, container =>
    match patch host defs n s child container none with
    | none => none
    | some (.error e, s1) => some (.error e, s1)
    | some (.ok _, s1) => patchEach host defs n s1 rest container
/-- Source lines 372-376. -/
def processFragment (host : Host) (defs : Nat → Component) :
    Nat → RenderState → VNode → Container → PatchResult
  | 0, _, _, _ => none
  | n + 1, s, vnode, container =>
    match vnode.children with
    | .array cs =>
      match patchEach host defs n s cs container with
      | none => none
      | some (.error e, s1) => some (.error e, s1)
      | some (.ok _, s1) => some (.ok vnode.el, s1)
    | _ => some (.error Err.typeError, s)
/-- Source lines 388-390. -/
def processElement (host : Host) (defs : Nat → Component) :
    Nat → RenderState → VNode → Container → PatchResult
  | 0, _, _, _ => none
  | n + 1, s, vnode, container => mountElement host defs n s vnode container
/-- Source lines 64-90. -/
def mountElement (host : Host) (defs : Nat → Component) :
    Nat → RenderState → VNode → Container → PatchResult
  | 0, _, _, _ => none
  | n + 1, s, vnode, container =>
    let el := s.nextEl
    let s1 : RenderState :=
      { s with ops := s.ops ++ [.createElement vnode.type el], nextEl := s.nextEl + 1 }
    let s2 : RenderState :=
      { s1 with ops := s1.ops ++ (vnode.props.getD []).map (propOp host el) }
    let mounted : PatchResult :=
      if jsAnd vnode.shapeFlag ShapeFlags.TEXT_CHILD != 0 then
        some (Except.ok none, { s2 with ops := s2.ops ++ [.setTextContent el vnode.children] })
      else if jsAnd vnode.shapeFlag ShapeFlags.ARRAY_CHILD != 0 then
        match vnode.children with
        | .array cs => patchEach host defs n s2 cs (Container.node el)
        | _ => some (Except.error Err.typeError, s2)
      else some (Except.ok none, s2)
    match mounted with
    | none => none
    | some (.error e, s3) => some (.error e, s3)
    | some (.ok _, s3) =>
      match appendTo host s3 container el with
      | (.ok (), s4) => some (.ok (some el), s4)
      | (.error e, s4) => some (.error e, s4)
/-- Source lines 392-394. -/
def processComponent (host : Host) (defs : Nat → Component) :
    Nat → RenderState → VNode → Container → Option ComponentInstance → PatchResult
  | 0, _, _, _, _ => none
  | n + 1, s, vnode, container, parent =>
    mountComponent host defs n s vnode container parent
/-- Source lines 334-338. -/
def mountComponent (host : Host) (defs : Nat → Component) :
    Nat → RenderState → VNode → Container → Option ComponentInstance → PatchResult
  | 0, _, _, _, _ => none
  | n + 1, s, vnode, container, parent =>
    let componentInstance := createComponentInstance vnode parent
    match setupComponent defs s componentInstance with
    | (.error e, s1, _) => some (.error e, s1)
    | (.ok (), s1, inst) =>
      setupRenderEffect host defs n { s1 with mounted := s1.mounted ++ [inst] } inst
        vnode container
/-- Source lines 341-349.  `effect` (lines 112-117) runs the function at once and
lets its error through; the call of `render` fails with a `TypeError` when the
field is `undefined`. -/
def setupRenderEffect (host : Host) (defs : Nat → Component) :
    Nat → RenderState → ComponentInstance → VNode → Container → PatchResult
  | 0, _, _, _, _ => none
  | n + 1, s, componentInstance, _, container =>
    match componentInstance.render with
    | none => some (.error Err.typeError, s)
    | some r =>
      match (defs r).render with
      | none => some (.error Err.typeError, s)
      | some render =>
        let subTree := render componentInstance
        patch host defs n s subTree container (some componentInstance)
end

/-- The state of the pipeline before anything is mounted. -/
def RenderState.init : RenderState :=
  { ops := [], nextEl := 0, currentInstance := none, mounted := [] }

/-- Source lines 396-398. -/
def render (host : Host) (defs : Nat → Component) (fuel : Nat) (s : RenderState)
    (vnode : VNode) (rootContainer : Container) : PatchResult :=
  patch host defs fuel s vnode rootContainer none

/-! ## Reactivity (lines 92-225)

Application code that runs against the reactivity engine is given as commands
(`Cmd`): reads and writes through wrappers or on raw objects, conditionals,
throws, calls of an effect function and calls of `effect`.  The fragment has no
loops; values stored into objects are raw values (`Val`), never wrappers.  A write
stands for the work of the `set` trap as lines 173-180 give it. -/

/-- A handler object (lines 183-194): the arguments its `get` trap was built with by
`getCreator(isShallow, isReadOnly)` and its `set` trap by `setCreator(isReadOnly)`. -/
structure Handler where
  isShallow : Bool
  isReadOnly : Bool
  setReadOnly : Bool
  deriving DecidableEq, Repr

/-- Source lines 183-186. -/
def reactiveHandler : Handler := { isShallow := false, isReadOnly := false, setReadOnly := false }

/-- Source lines 187-190. -/
def readOnlyHandler : Handler := { isShallow := false, isReadOnly := true, setReadOnly := true }

/-- Source lines 191-194. -/
def shallowReadOnlyHandler : Handler :=
  { isShallow := true, isReadOnly := true, setReadOnly := true }

/-- The result of an expression: a raw value or a wrapper (a `Proxy` object, by
identity). -/
inductive Value
  | raw (v : Val)
  | proxy (p : Nat)
  deriving DecidableEq, Repr

/-- JavaScript truthiness of an expression result; a wrapper is an object. -/
def Value.truthy : Value → Bool
  | .raw v => Echo.truthy v
  | .proxy _ => true

/-- Expressions of application code: a raw value, `reactive(target)`,
`readonly(target)`, `shallowReadonly(target)` and the property read `o.key`. -/
inductive Expr
  | lit (v : Val)
  | reactive (target : Val)
  | readonly (target : Val)
  | shallowReadonly (target : Val)
  | get (o : Expr) (key : String)
  deriving DecidableEq, Repr

/-- Statements of application code: an expression statement, the assignment
`o.key = val`, `if (c) t else f`, `throw`, the call `reactiveEffect()` of the effect
function with identity `e`, and `effect(fn, { lazy, scheduler })`. -/
inductive Cmd
  | eval (e : Expr)
  | assign (o : Expr) (key : String) (val : Val)
  | ite (c : Expr) (t f : List Cmd)
  | throw (tag : Nat)
  | call (e : Nat)
  | effect (fn : List Cmd) (lazy : Bool) (scheduler : Option (List Cmd))

/-- The function built by `createReactiveEffect` (lines 96-109): its computation
`fn` and its `scheduler` property (`none` for `undefined`). -/
structure ReactiveEffect where
  fn : List Cmd
  scheduler : Option (List Cmd)

/-- A `Proxy` object built at line 209: its target, a plain object, and handler. -/
structure ProxyObj where
  target : Nat
  handler : Handler
  deriving DecidableEq, Repr

/-- What the engine was seen to do, in order: `fn e` for the call `fn()` of effect
`e` at line 101, `scheduler e` for the call at line 149, `read` for a run of a `get`
trap (the active effect at that moment, target, key, and the trap's `isReadOnly`),
`write` for a write of a field (the `Reflect.set` of line 177, or a plain assignment
on a raw object). -/
inductive Event
  | fn (e : Nat)
  | scheduler (e : Nat)
  | read (active : Option Nat) (target : Nat) (key : String) (isReadOnly : Bool)
  | write (target : Nat) (key : String) (val : Val)
  deriving DecidableEq, Repr

/-- The module state of the reactivity engine together with the objects it works on:
the fields of the plain objects, the effect functions created so far (an effect's
identity is its index), `reactivrEffectStack` (line 92), `currentReactiveEffect`
(line 93), `targetMap` (line 119) with maps and sets in insertion order,
`reactiveMap` and `readOnlyMap` (lines 197-198), the `Proxy` objects created so far
(a wrapper's identity is its index), and the trace of events. -/
structure State where
  heap : List (Nat × Fields)
  effects : List ReactiveEffect
  reactivrEffectStack : List Nat
  currentReactiveEffect : Option Nat
  targetMap : List (Nat × List (String × List Nat))
  reactiveMap : List (Nat × Nat)
  readOnlyMap : List (Nat × Nat)
  proxies : List ProxyObj
  trace : List Event

/-- The state of a freshly loaded module over the given objects. -/
def State.init (heap : List (Nat × Fields)) : State :=
  { heap := heap, effects := [], reactivrEffectStack := [], currentReactiveEffect := none,
    targetMap := [], reactiveMap := [], readOnlyMap := [], proxies := [], trace := [] }

/-- `Map.prototype.set` on a map kept in insertion order. -/
def mapSet {α β : Type} [BEq α] : List (α × β) → α → β → List (α × β)
  | [], k, v => [(k, v)]
  | (k1, v1) :: rest, k, v =>
    if k1 == k then (k1, v) :: rest else (k1, v1) :: mapSet rest k v

/-- `Set.prototype.add` on a set kept in insertion order. -/
def setAdd (dep : List Nat) (e : Nat) : List Nat :=
  if dep.contains e then dep else dep ++ [e]

/-- `Reflect.get(target, key)` on a plain object: the own field, else `undefined`. -/
def reflectGet (s : State) (target : Nat) (key : String) : Val :=
  ((s.heap.lookup target).getD []).get key

/-- `Reflect.set(target, key, val)` on a plain object (line 177; also the effect of a
plain assignment on a raw object), with its trace entry. -/
def reflectSet (s : State) (target : Nat) (key : String) (val : Val) : State :=
  { s with heap := mapSet s.heap target (((s.heap.lookup target).getD []).set key val),
           trace := s.trace ++ [.write target key val] }

/-- The set registered under `(target, key)` in `targetMap`, empty when there is
none. -/
def depOf (s : State) (target : Nat) (key : String) : List Nat :=
  ((s.targetMap.lookup target).bind (fun depMap => depMap.lookup key)).getD []

/-- How often the computation of effect `e` was started (line 101) so far. -/
def fnCount (s : State) (e : Nat) : Nat := s.trace.count (.fn e)

/-- Source lines 121-136. -/
def Track (s : State) (target : Nat) (key : String) : State :=
  match s.currentReactiveEffect with
  | none => s
  | some e =>
    let depMap := (s.targetMap.lookup target).getD []
    let dep := (depMap.lookup key).getD []
    { s with targetMap := mapSet s.targetMap target (mapSet depMap key (setAdd dep e)) }

/-- Source lines 200-213; the result is the identity of the wrapper. -/
def createReactiveObject (s : State) (target : Val) (isReadOnly : Bool) (handler : Handler) :
    Except Err Nat × State :=
  if isObject target != true then (.error Err.invalidTarget, s)
  else
    match target with
    | .obj r =>
      match (if isReadOnly then s.readOnlyMap else s.reactiveMap).lookup r with
      | some proxy => (.ok proxy, s)
      | none =>
        let proxy := s.proxies.length
        if isReadOnly then
          (.ok proxy, { s with proxies := s.proxies ++ [{ target := r, handler := handler }],
                               readOnlyMap := s.readOnlyMap ++ [(r, proxy)] })
        else
          (.ok proxy, { s with proxies := s.proxies ++ [{ target := r, handler := handler }],
                               reactiveMap := s.reactiveMap ++ [(r, proxy)] })
    | _ => (.error Err.invalidTarget, s)

/-- Source lines 215-217. -/
def reactive (s : State) (target : Val) : Except Err Nat × State :=
  createReactiveObject s target false reactiveHandler

/-- Source lines 219-221. -/
def readonly (s : State) (target : Val) : Except Err Nat × State :=
  createReactiveObject s target true readOnlyHandler

/-- Source lines 223-225. -/
def shallowReadonly (s : State) (target : Val) : Except Err Nat × State :=
  createReactiveObject s target true shallowReadOnlyHandler

/-- The result of a wrapping call as an expression result. -/
def asValue (r : Except Err Nat × State) : Except Err Value × State :=
  match r with
  | (.ok p, s) => (.ok (.proxy p), s)
  | (.error e, s) => (.error e, s)

/-- Source lines 156-170: the `get` trap built by `getCreator(isShallow, isReadOnly)`,
run on `(target, key)`. -/
def getCreator (isShallow isReadOnly : Bool) (s : State) (target : Nat) (key : String) :
    Except Err Value × State :=
  let res := reflectGet s target key
  let s0 : State :=
    { s with trace := s.trace ++ [.read s.currentReactiveEffect target key isReadOnly] }
  let s1 := if !isReadOnly then Track s0 target key else s0
  if !isShallow && isObject res then
    if isReadOnly then asValue (readonly s1 res) else asValue (reactive s1 res)
  else (.ok (.raw res), s1)

/-- Evaluation of an expression.  A read on a wrapper runs the handler's `get` trap;
a read on a raw plain object returns the field; a read on `undefined` or `null`
raises a `TypeError`; other raw receivers have no modelled properties. -/
def evalExpr (s : State) : Expr → Except Err Value × State
  | .lit v => (.ok (.raw v), s)
  | .reactive target => asValue (reactive s target)
  | .readonly target => asValue (readonly s target)
  | .shallowReadonly target => asValue (shallowReadonly s target)
  | .get o key =>
    match evalExpr s o with
    | (.error e, s1) => (.error e, s1)
    | (.ok (.proxy p), s1) =>
      match s1.proxies[p]? with
      | some px => getCreator px.handler.isShallow px.handler.isReadOnly s1 px.target key
      | none => (.error Err.typeError, s1)
    | (.ok (.raw .undefined), s1) => (.error Err.typeError, s1)
    | (.ok (.raw .null), s1) => (.error Err.typeError, s1)
    | (.ok (.raw (.obj r)), s1) => (.ok (.raw (reflectGet s1 r key)), s1)
    | (.ok (.raw _), s1) => (.ok (.raw .undefined), s1)

/-- Source lines 95-110, without the call: the new function's identity and the state
holding it. -/
def createReactiveEffect (s : State) (fn : List Cmd) (scheduler : Option (List Cmd)) :
    Nat × State :=
  (s.effects.length, { s with effects := s.effects ++ [{ fn := fn, scheduler := scheduler }] })

/-- Source lines 99-101: the effect is pushed and made current, `fn()` starts. -/
def enterEffect (s : State) (e : Nat) : State :=
  { s with reactivrEffectStack := s.reactivrEffectStack ++ [e],
           currentReactiveEffect := some e,
           trace := s.trace ++ [.fn e] }

/-- Source lines 103-104: the `finally` block. -/
def leaveEffect (s : State) : State :=
  { s with reactivrEffectStack := s.reactivrEffectStack.dropLast,
           currentReactiveEffect := s.reactivrEffectStack.dropLast.getLast? }

/-- The trace entry of the call `effect.scheduler()` at line 149. -/
def enterScheduler (s : State) (e : Nat) : State :=
  { s with trace := s.trace ++ [.scheduler e] }

/-- The result of running code: `none` when the fuel ran out or an effect identity
names no function of the state, else normal completion or the thrown error, with
the state reached. -/
abbrev Run := Option (Except Err Unit × State)

mutual
/-- The body of a function: its statements in order, stopping at the first throw. -/
def execBlock : Nat → State → List Cmd → Run
  | 0, _, _ => none
  | _ + 1, s, [] => some (.ok (), s)
  | n + 1, s, c :: rest =>
    match execCmd n s c with
    | none => none
    | some (.error e, s1) => some (.error e, s1)
    | some (.ok (), s1) => execBlock n s1 rest
/-- One statement.  An assignment on a wrapper runs the handler's `set` trap; on a
raw plain object it writes the field; on `undefined` or `null` it raises a
`TypeError`; other raw receivers have no modelled properties. -/
def execCmd : Nat → State → Cmd → Run
  | 0, _, _ => none
  | _ + 1, s, .eval e =>
    match evalExpr s e with
    | (.ok _, s1) => some (.ok (), s1)
    | (.error x, s1) => some (.error x, s1)
  | n + 1, s, .assign o key val =>
    match evalExpr s o with
    | (.error x, s1) => some (.error x, s1)
    | (.ok (.proxy p), s1) =>
      match s1.proxies[p]? with
      | some px => setCreator px.handler.setReadOnly n s1 px.target key val
      | none => some (.error Err.typeError, s1)
    | (.ok (.raw .undefined), s1) => some (.error Err.typeError, s1)
    | (.ok (.raw .null), s1) => some (.error Err.typeError, s1)
    | (.ok (.raw (.obj r)), s1) => some (.ok (), reflectSet s1 r key val)
    | (.ok (.raw _), s1) => some (.ok (), s1)
  | n + 1, s, .ite c t f =>
    match evalExpr s c with
    | (.error x, s1) => some (.error x, s1)
    | (.ok v, s1) => if v.truthy then execBlock n s1 t else execBlock n s1 f
  | _ + 1, s, .throw tag => some (.error (Err.user tag), s)
  | n + 1, s, .call e => reactiveEffect n s e
  | n + 1, s, .effect fn lazy scheduler => effect n s fn lazy scheduler
/-- Source lines 172-181: the `set` trap built by `setCreator(isReadOnly)`, run on
`(target, key, val)`. -/
def setCreator (isReadOnly : Bool) : Nat → State → Nat → String → Val → Run
  | 0, _, _, _, _ => none
  | n + 1, s, target, key, val =>
    if isReadOnly then some (.error Err.readOnly, s)
    else Trigger n (reflectSet s target key val) target key
/-- Source lines 138-154.  `depMap.get(key).forEach` raises a `TypeError` when the
key has no set; `effectSet` is the copy made at lines 143-146. -/
def Trigger : Nat → State → Nat → String → Run
  | 0, _, _, _ => none
  | n + 1, s, target, key =>
    match s.targetMap.lookup target with
    | none => some (.ok (), s)
    | some depMap =>
      match depMap.lookup key with
      | none => some (.error Err.typeError, s)
      | some dep => triggerEach n s (dep.foldl setAdd [])
/-- Source lines 147-153: the loop over `effectSet`. -/
def triggerEach : Nat → State → List Nat → Run
  | 0, _, _ => none
  | _ + 1, s, [] => some (.ok (), s)
  | n + 1, s, e :: rest =>
    match s.effects[e]? with
    | none => none
    | some eff =>
      match (match eff.scheduler with
          | some scheduler => execBlock n (enterScheduler s e) scheduler
          | none => reactiveEffect n s e) with
      | none => none
      | some (.error x, s1) => some (.error x, s1)
      | some (.ok (), s1) => triggerEach n s1 rest
/-- Source lines 96-107: a call of the effect function with identity `e`. -/
def reactiveEffect : Nat → State → Nat → Run
  | 0, _, _ => none
  | n + 1, s, e =>
    if s.reactivrEffectStack.contains e then some (.ok (), s)
    else
      match s.effects[e]? with
      | none => none
      | some eff =>
        match execBlock n (enterEffect s e) eff.fn with
        | none => none
        | some (r, s2) => some (r, leaveEffect s2)
/-- Source lines 112-117. -/
def effect : Nat → State → List Cmd → Bool → Option (List Cmd) → Run
  | 0, _, _, _, _ => none
  | n + 1, s, fn, lazy, scheduler =>
    if lazy != true then
      reactiveEffect n (createReactiveEffect s fn scheduler).2 (createReactiveEffect s fn scheduler).1
    else some (.ok (), (createReactiveEffect s fn scheduler).2)
end

/-- Code that performs no write, calls no effect function and creates no effect:
expression statements, conditionals over such code, and throws. -/
inductive NoWrites : List Cmd → Prop
  | nil : NoWrites []
  | eval (e : Expr) {rest : List Cmd} : NoWrites rest → NoWrites (.eval e :: rest)
  | ite (c : Expr) {t f rest : List Cmd} :
      NoWrites t → NoWrites f → NoWrites rest → NoWrites (.ite c t f :: rest)
  | throw (tag : Nat) {rest : List Cmd} : NoWrites rest → NoWrites (.throw tag :: rest)

/-- The invariant of the engine's state: `currentReactiveEffect` is the top of the
effect stack; a wrapper cached in `reactiveMap` is a `Proxy` over that target with
`reactiveHandler`; a wrapper cached in `readOnlyMap` is a `Proxy` over that target
whose traps were built read-only; and an effect is registered under `(target, key)`
exactly when the trace holds a read of that field by it, as the active effect,
through a `get` trap that was not built read-only. -/
structure WF (s : State) : Prop where
  current : s.currentReactiveEffect = s.reactivrEffectStack.getLast?
  reactiveCache : ∀ r p, s.reactiveMap.lookup r = some p →
    s.proxies[p]? = some { target := r, handler := reactiveHandler }
  readOnlyCache : ∀ r p, s.readOnlyMap.lookup r = some p →
    ∃ h, s.proxies[p]? = some { target := r, handler := h } ∧
      h.isReadOnly = true ∧ h.setReadOnly = true
  log : ∀ e target key,
    e ∈ depOf s target key ↔ Event.read (some e) target key false ∈ s.trace

/-- What a run shows from outside: the error it ended with (`none` for normal
completion), the trace, the dependency graph and the heap reached. -/
structure Observation where
  error : Option Err
  trace : List Event
  targetMap : List (Nat × List (String × List Nat))
  heap : List (Nat × Fields)
  deriving DecidableEq, Repr

/-- The error a completion carries, if any. -/
def errorOf : Except Err Unit → Option Err
  | .ok _ => none
  | .error e => some e

/-- The observation of a run; `none` when the fuel ran out. -/
def observe (r : Run) : Option Observation :=
  r.map (fun x => Observation.mk (errorOf x.1) x.2.trace x.2.targetMap x.2.heap)

/-- Two states of which the second differs from the first at most in the dependency
graph, the wrappers and their caches, and in trace entries other than starts of
computations. -/
def SameButReads (a b : State) : Prop :=
  b.heap = a.heap ∧ b.effects = a.effects ∧
  b.reactivrEffectStack = a.reactivrEffectStack ∧
  b.currentReactiveEffect = a.currentReactiveEffect ∧ ∀ x, fnCount b x = fnCount a x

/-- An effect that only observes: it exists among `effects`, and its computation
and its scheduler, if it has one, perform no writes. -/
def Observer (effects : List ReactiveEffect) (e : Nat) : Prop :=
  ∃ eff, effects[e]? = some eff ∧ NoWrites eff.fn ∧
    ∀ sc, eff.scheduler = some sc → NoWrites sc

/-- An effect whose notification starts no write: an observer, or an effect without
scheduler that is on the effect stack, so that a call of it does nothing. -/
def Quiet (effects : List ReactiveEffect) (stack : List Nat) (e : Nat) : Prop :=
  Observer effects e ∨ ∃ eff, effects[e]? = some eff ∧ eff.scheduler = none ∧ e ∈ stack

/-- What a run leaves inside the module besides its observation: the number of
effect functions, the effect stack, the current effect, the two wrapper caches and
the wrappers. -/
structure Internals where
  effectCount : Nat
  reactivrEffectStack : List Nat
  currentReactiveEffect : Option Nat
  reactiveMap : List (Nat × Nat)
  readOnlyMap : List (Nat × Nat)
  proxies : List ProxyObj
  deriving DecidableEq, Repr

/-- The internals of a state. -/
def State.internals (s : State) : Internals :=
  Internals.mk s.effects.length s.reactivrEffectStack s.currentReactiveEffect s.reactiveMap
    s.readOnlyMap s.proxies

/-- The internals a run reaches; `none` when the fuel ran out. -/
def internals (r : Run) : Option Internals :=
  r.map (fun x => x.2.internals)

/-! ## Example inputs -/

/-- A host whose `toLowerCase` maps the ASCII letters and whose document holds no
node to look up; used to evaluate the pipeline on concrete inputs. -/
def asciiHost : Host :=
  { toLowerCase := fun s => String.mk (s.data.map Char.toLower), querySelector := fun _ => none }

/-- A host whose `toLowerCase` maps the ASCII letters and whose document holds
surface node 9 under the lookup string `#app` and nothing under any other. -/
def documentHost : Host :=
  { toLowerCase := fun s => String.mk (s.data.map Char.toLower),
    querySelector := fun sel => if sel = "#app" then some 9 else none }

/-- A component definition with a `render` function and no `setup`. -/
def renderOnly : Component :=
  { setup := none, render := some (fun _ => createVNode (.str "div") none (.text "hi")) }

/-- A component definition with a `setup` function, which returns `undefined`, and
no `render`. -/
def setupOnly : Component :=
  { setup := some (fun _ => { provides := [], result := .ok none }), render := none }

/-- A component definition whose `setup` throws. -/
def throwingSetup : Component :=
  { setup := some (fun _ => { provides := [], result := .error (Err.user 0) }), render := none }

/-- A mapping of named slots: a callable `header`, a sequence `body` and a
single-vnode `footer`. -/
def exampleSlots : List (String × Slot) :=
  [("header", .fn (fun _ => createTextVNode "t")), ("body", .array []),
    ("footer", .node (createTextVNode "f"))]

/-- A child component: its `setup` returns `{ got: inject('k') }`, its `render`
returns `h('span', undefined, 'c')`. -/
def childComponent : Component :=
  { setup := some (fun inst =>
      { provides := [],
        result := .ok (some [("got", inject (setCurrentInstance RenderState.init (some inst)) "k")]) }),
    render := some (fun _ => h1 (.str "span") none (.text "c")) }

/-- A parent component: its `setup` calls `provide('k', 5)`, its `render` returns the
given subtree. -/
def parentComponent (subTree : VNode) : Component :=
  { setup := some (fun _ => { provides := [("k", .num 5)], result := .ok none }),
    render := some (fun _ => subTree) }

/-- The definitions table with `parentComponent subTree` as object 0 and
`childComponent` as every other object. -/
def familyDefs (subTree : VNode) : Nat → Component :=
  fun r => if r = 0 then parentComponent subTree else childComponent

/-- For each instance set up so far: its definition, the definition of its parent
instance if it has one, and the value its `setupState` holds under `got`. -/
def mountedSummary (s : RenderState) : List (Val × Option Val × Val) :=
  s.mounted.map (fun i => (i.type, i.parent.map (fun p => p.type), i.setupState.get "got"))

/-- Two plain objects: object 0 with fields `a`, `b` and `n`, the last holding
object 1, which has the field `x`. -/
def exampleHeap : List (Nat × Fields) :=
  [(0, [("a", .num 1), ("b", .num 2), ("n", .obj 1)]), (1, [("x", .num 7)])]

/-- A fresh module over the example heap in which one effect function was created
by `createReactiveEffect` and not yet called: it reads field `a` of object 0
through `reactive` and then throws. -/
def exampleThrowing : State :=
  (createReactiveEffect (State.init exampleHeap)
    [.eval (.get (.reactive (.obj 0)) "a"), .throw 3] none).2

/-- The state a fresh module over the example heap reaches once `effect` has run a
computation that reads field `a` of object 0 through `reactive`. -/
def exampleTracked : State :=
  State.mk exampleHeap [ReactiveEffect.mk [.eval (.get (.reactive (.obj 0)) "a")] none] [] none
    [(0, [("a", [0])])] [(0, 0)] [] [ProxyObj.mk 0 reactiveHandler]
    [.fn 0, .read (some 0) 0 "a" false]

/-- The example state with one registered effect, in which a second effect function
was created by `createReactiveEffect` and not yet called: effect 1 reads field `a`
of object 0 through `reactive` and then writes 9 to it; effect 0, registered under
that field, only reads it. -/
def exampleSelfObserved : State :=
  (createReactiveEffect exampleTracked
    [.eval (.get (.reactive (.obj 0)) "a"), .assign (.reactive (.obj 0)) "a" (.num 9)] none).2

/-- The state a fresh module over the example heap reaches once `effect` has run
effect 0, whose computation reads field `a` of object 0 through `reactive` and whose
scheduler writes 5 to that field through `reactive`, and has created effect 1 with
`lazy: true`: its computation reads the field through `reactive` and then writes 9
to it. -/
def exampleLoop : State :=
  State.mk exampleHeap
    [ReactiveEffect.mk [.eval (.get (.reactive (.obj 0)) "a")]
        (some [.assign (.reactive (.obj 0)) "a" (.num 5)]),
      ReactiveEffect.mk
        [.eval (.get (.reactive (.obj 0)) "a"), .assign (.reactive (.obj 0)) "a" (.num 9)] none]
    [] none [(0, [("a", [0])])] [(0, 0)] [] [ProxyObj.mk 0 reactiveHandler]
    [.fn 0, .read (some 0) 0 "a" false]

/-- A fresh module over the example heap in which one effect function was created
by `createReactiveEffect` and not yet called: it reads `reactive(0).n.x`. -/
def exampleNested : State :=
  (createReactiveEffect (State.init exampleHeap)
    [.eval (.get (.get (.reactive (.obj 0)) "n") "x")] none).2

/-- The state a fresh module over the example heap reaches once `effect` has run a
computation that reads `reactive(0).n.x`. -/
def exampleNestedTracked : State :=
  State.mk exampleHeap [ReactiveEffect.mk [.eval (.get (.get (.reactive (.obj 0)) "n") "x")] none]
    [] none [(0, [("n", [0])]), (1, [("x", [0])])] [(0, 0), (1, 1)] []
    [ProxyObj.mk 0 reactiveHandler, ProxyObj.mk 1 reactiveHandler]
    [.fn 0, .read (some 0) 0 "n" false, .read (some 0) 1 "x" false]

/-! # Theorems -/

/-! ## Reactivity: maps and sets -/

theorem lookup_mapSet_self {α β : Type} [BEq α] [LawfulBEq α] (m : List (α × β)) (k : α)
    (v : β) : (mapSet m k v).lookup k = some v := by
  induction m with
  | nil => simp [mapSet, List.lookup]
  | cons hd tl ih =>
    obtain ⟨k1, v1⟩ := hd
    by_cases h : k1 = k
    · subst h
      simp [mapSet, List.lookup]
    · have h2 : (k == k1) = false := by simpa using fun h3 => h h3.symm
      simp [mapSet, h, List.lookup, h2, ih]

theorem lookup_mapSet_ne {α β : Type} [BEq α] [LawfulBEq α] (m : List (α × β)) (k k2 : α)
    (v : β) (h : k2 ≠ k) : (mapSet m k v).lookup k2 = m.lookup k2 := by
  induction m with
  | nil =>
    have h2 : (k2 == k) = false := by simpa using h
    simp [mapSet, List.lookup, h2]
  | cons hd tl ih =>
    obtain ⟨k1, v1⟩ := hd
    by_cases h1 : k1 = k
    · subst h1
      have h2 : (k2 == k1) = false := by simpa using h
      simp [mapSet, List.lookup, h2]
    · by_cases h3 : k2 = k1
      · subst h3
        simp [mapSet, h1, List.lookup]
      · have h4 : (k2 == k1) = false := by simpa using h3
        simp [mapSet, h1, List.lookup, h4, ih]

theorem mem_setAdd (dep : List Nat) (e x : Nat) : x ∈ setAdd dep e ↔ x ∈ dep ∨ x = e := by
  by_cases h : e ∈ dep
  · have h2 : setAdd dep e = dep := by simp [setAdd, h]
    rw [h2]
    constructor
    · exact Or.inl
    · rintro (h1 | rfl)
      · exact h1
      · exact h
  · simp [setAdd, h]

theorem depOf_Track (s : State) (target : Nat) (key : String) (t2 : Nat) (k2 : String) :
    depOf (Track s target key) t2 k2 =
      match s.currentReactiveEffect with
      | none => depOf s t2 k2
      | some e => if t2 = target ∧ k2 = key then setAdd (depOf s target key) e
                  else depOf s t2 k2 := by
  unfold Track
  cases hc : s.currentReactiveEffect with
  | none => simp
  | some e =>
    simp only
    by_cases ht : t2 = target
    · subst ht
      by_cases hk : k2 = key
      · subst hk
        simp [depOf, lookup_mapSet_self]
        cases s.targetMap.lookup t2 <;> simp
      · simp only [depOf, lookup_mapSet_self, Option.bind, hk, and_false, if_false]
        rw [lookup_mapSet_ne _ _ _ _ hk]
        cases s.targetMap.lookup t2 <;> simp [List.lookup]
    · simp only [depOf, ht, false_and, if_false]
      rw [lookup_mapSet_ne _ _ _ _ ht]

/-! ## Reactivity: invariants of every run -/

/-- Any relation between states that is reflexive and transitive, holds across each
primitive step of the engine, and holds across a bracketed effect run whenever it
holds across the run's body, holds across every run of code. -/
theorem exec_rel (R : State → State → Prop)
    (hrefl : ∀ s, R s s) (htrans : ∀ a b c, R a b → R b c → R a c)
    (heval : ∀ s e, R s (evalExpr s e).2)
    (hset : ∀ s t k v, R s (reflectSet s t k v))
    (hsched : ∀ s e, R s (enterScheduler s e))
    (hcreate : ∀ s fn sc, R s (createReactiveEffect s fn sc).2)
    (hbracket : ∀ s e s2, s.reactivrEffectStack.contains e = false →
      R (enterEffect s e) s2 → R s (leaveEffect s2)) :
    ∀ n,
      (∀ s cs r s', execBlock n s cs = some (r, s') → R s s') ∧
      (∀ s c r s', execCmd n s c = some (r, s') → R s s') ∧
      (∀ ro s t k v r s', setCreator ro n s t k v = some (r, s') → R s s') ∧
      (∀ s t k r s', Trigger n s t k = some (r, s') → R s s') ∧
      (∀ s es r s', triggerEach n s es = some (r, s') → R s s') ∧
      (∀ s e r s', reactiveEffect n s e = some (r, s') → R s s') ∧
      (∀ s fn lz sc r s', effect n s fn lz sc = some (r, s') → R s s') := by
  intro n
  induction n with
  | zero =>
    refine ⟨?_, ?_, ?_, ?_, ?_, ?_, ?_⟩ <;> intros <;>
      simp_all [execBlock, execCmd, setCreator, Trigger, triggerEach, reactiveEffect, effect]
  | succ n ih =>
    obtain ⟨ihB, ihC, ihS, ihT, ihE, ihR, ihF⟩ := ih
    refine ⟨?_, ?_, ?_, ?_, ?_, ?_, ?_⟩
    · intro s cs r s' h
      cases cs with
      | nil =>
        simp only [execBlock, Option.some.injEq, Prod.mk.injEq] at h
        rw [← h.2]
        exact hrefl s
      | cons c rest =>
        simp only [execBlock] at h
        cases hc : execCmd n s c with
        | none => simp [hc] at h
        | some res =>
          obtain ⟨r1, s1⟩ := res
          have h1 := ihC s c r1 s1 hc
          cases r1 with
          | error x =>
            simp only [hc, Option.some.injEq, Prod.mk.injEq] at h
            rw [← h.2]
            exact h1
          | ok u =>
            simp only [hc] at h
            exact htrans _ _ _ h1 (ihB s1 rest r s' h)
    · intro s c r s' h
      cases c with
      | eval e =>
        simp only [execCmd] at h
        have h1 := heval s e
        cases he : evalExpr s e with
        | mk o s1 =>
          rw [he] at h h1
          cases o <;> simp only [Option.some.injEq, Prod.mk.injEq] at h <;> rw [← h.2] <;> exact h1
      | assign o key val =>
        simp only [execCmd] at h
        have h1 := heval s o
        cases he : evalExpr s o with
        | mk res s1 =>
          rw [he] at h h1
          simp only at h1
          cases res with
          | error x =>
            simp only [Option.some.injEq, Prod.mk.injEq] at h
            rw [← h.2]
            exact h1
          | ok v =>
            cases v with
            | proxy p =>
              simp only at h
              cases hp : s1.proxies[p]? with
              | none =>
                simp only [hp, Option.some.injEq, Prod.mk.injEq] at h
                rw [← h.2]
                exact h1
              | some px =>
                simp only [hp] at h
                exact htrans _ _ _ h1 (ihS _ _ _ _ _ _ _ h)
            | raw w =>
              cases w <;> simp only [Option.some.injEq, Prod.mk.injEq] at h <;> rw [← h.2] <;>
                first
                  | exact h1
                  | exact htrans _ _ _ h1 (hset _ _ _ _)
      | ite c t f =>
        simp only [execCmd] at h
        have h1 := heval s c
        cases he : evalExpr s c with
        | mk res s1 =>
          rw [he] at h h1
          simp only at h1
          cases res with
          | error x =>
            simp only [Option.some.injEq, Prod.mk.injEq] at h
            rw [← h.2]
            exact h1
          | ok v =>
            simp only at h
            by_cases hv : v.truthy = true
            · simp only [hv, if_true] at h
              exact htrans _ _ _ h1 (ihB _ _ _ _ h)
            · simp only [hv] at h
              exact htrans _ _ _ h1 (ihB _ _ _ _ h)
      | throw tag =>
        simp only [execCmd, Option.some.injEq, Prod.mk.injEq] at h
        rw [← h.2]
        exact hrefl s
      | call e =>
        simp only [execCmd] at h
        exact ihR _ _ _ _ h
      | effect fn lz sc =>
        simp only [execCmd] at h
        exact ihF _ _ _ _ _ _ h
    · intro ro s t k v r s' h
      simp only [setCreator] at h
      by_cases hro : ro = true
      · simp only [hro, if_true, Option.some.injEq, Prod.mk.injEq] at h
        rw [← h.2]
        exact hrefl s
      · simp only [hro] at h
        exact htrans _ _ _ (hset s t k v) (ihT _ _ _ _ _ h)
    · intro s t k r s' h
      simp only [Trigger] at h
      cases hm : s.targetMap.lookup t with
      | none =>
        simp only [hm, Option.some.injEq, Prod.mk.injEq] at h
        rw [← h.2]
        exact hrefl s
      | some depMap =>
        simp only [hm] at h
        cases hd : depMap.lookup k with
        | none =>
          simp only [hd, Option.some.injEq, Prod.mk.injEq] at h
          rw [← h.2]
          exact hrefl s
        | some dep =>
          simp only [hd] at h
          exact ihE _ _ _ _ h
    · intro s es r s' h
      cases es with
      | nil =>
        simp only [triggerEach, Option.some.injEq, Prod.mk.injEq] at h
        rw [← h.2]
        exact hrefl s
      | cons e rest =>
        simp only [triggerEach] at h
        cases hf : s.effects[e]? with
        | none => simp [hf] at h
        | some eff =>
          simp only [hf] at h
          cases hs : eff.scheduler with
          | some sc =>
            simp only [hs] at h
            cases hx : execBlock n (enterScheduler s e) sc with
            | none => simp [hx] at h
            | some res =>
              obtain ⟨r1, s1⟩ := res
              have h1 := htrans _ _ _ (hsched s e) (ihB _ _ _ _ hx)
              cases r1 with
              | error x =>
                simp only [hx, Option.some.injEq, Prod.mk.injEq] at h
                rw [← h.2]
                exact h1
              | ok u =>
                simp only [hx] at h
                exact htrans _ _ _ h1 (ihE _ _ _ _ h)
          | none =>
            simp only [hs] at h
            cases hx : reactiveEffect n s e with
            | none => simp [hx] at h
            | some res =>
              obtain ⟨r1, s1⟩ := res
              have h1 := ihR _ _ _ _ hx
              cases r1 with
              | error x =>
                simp only [hx, Option.some.injEq, Prod.mk.injEq] at h
                rw [← h.2]
                exact h1
              | ok u =>
                simp only [hx] at h
                exact htrans _ _ _ h1 (ihE _ _ _ _ h)
    · intro s e r s' h
      simp only [reactiveEffect] at h
      by_cases hc : s.reactivrEffectStack.contains e = true
      · simp only [hc, if_true, Option.some.injEq, Prod.mk.injEq] at h
        rw [← h.2]
        exact hrefl s
      · simp only [hc] at h
        cases hf : s.effects[e]? with
        | none => simp [hf] at h
        | some eff =>
          simp only [hf] at h
          cases hx : execBlock n (enterEffect s e) eff.fn with
          | none => simp [hx] at h
          | some res =>
            obtain ⟨r1, s2⟩ := res
            simp only [hx, Bool.false_eq_true, if_false, Option.some.injEq, Prod.mk.injEq] at h
            rw [← h.2]
            exact hbracket s e s2 (by simpa using hc) (ihB _ _ _ _ hx)
    · intro s fn lz sc r s' h
      simp only [effect] at h
      by_cases hl : (lz != true) = true
      · simp only [hl, if_true] at h
        exact htrans _ _ _ (hcreate s fn sc) (ihR _ _ _ _ h)
      · simp only [hl, Bool.false_eq_true, if_false, Option.some.injEq, Prod.mk.injEq] at h
        rw [← h.2]
        exact hcreate s fn sc

theorem asValue_snd (r : Except Err Nat × State) : (asValue r).2 = r.2 := by
  obtain ⟨o, s⟩ := r
  cases o <;> rfl

theorem lookup_append_single {β : Type} (m : List (Nat × β)) (k : Nat) (v : β) (k2 : Nat) :
    (m ++ [(k, v)]).lookup k2 =
      match m.lookup k2 with
      | some x => some x
      | none => if k2 = k then some v else none := by
  induction m with
  | nil =>
    by_cases h : k2 = k
    · subst h
      simp [List.lookup]
    · have h2 : (k2 == k) = false := by simpa using h
      simp [List.lookup, h2, h]
  | cons hd tl ih =>
    obtain ⟨k1, v1⟩ := hd
    by_cases h : k2 = k1
    · subst h
      simp [List.lookup]
    · have h2 : (k2 == k1) = false := by simpa using h
      simp only [List.cons_append, List.lookup, h2]
      exact ih

/-- The invariant survives `createReactiveObject` called with a handler that fits the
cache it goes to. -/
theorem WF_createReactiveObject (s : State) (target : Val) (isReadOnly : Bool) (h : Handler)
    (hh : if isReadOnly then h.isReadOnly = true ∧ h.setReadOnly = true else h = reactiveHandler)
    (hs : WF s) : WF (createReactiveObject s target isReadOnly h).2 := by
  unfold createReactiveObject
  by_cases ho : (isObject target != true) = true
  · simpa [ho] using hs
  · simp only [ho, Bool.false_eq_true, if_false]
    cases target with
    | obj r =>
      simp only
      cases hl : (if isReadOnly = true then s.readOnlyMap else s.reactiveMap).lookup r with
      | some p => simpa using hs
      | none =>
        simp only
        cases isReadOnly with
        | true =>
          simp only [if_true] at hl hh ⊢
          refine ⟨hs.current, ?_, ?_, hs.log⟩
          · intro r2 p2 hp
            have h1 := hs.reactiveCache r2 p2 hp
            have h2 : p2 < s.proxies.length := by
              by_contra hcon
              rw [List.getElem?_eq_none (by omega)] at h1
              exact Option.noConfusion h1
            show (s.proxies ++ _)[p2]? = _
            rw [List.getElem?_append_left h2]
            exact h1
          · intro r2 p2 hp
            change (s.readOnlyMap ++ [(r, s.proxies.length)]).lookup r2 = some p2 at hp
            rw [lookup_append_single] at hp
            cases hl2 : s.readOnlyMap.lookup r2 with
            | some x =>
              simp only [hl2, Option.some.injEq] at hp
              subst hp
              obtain ⟨h3, h4, h5⟩ := hs.readOnlyCache r2 x hl2
              refine ⟨h3, ?_, h5⟩
              have h2 : x < s.proxies.length := by
                by_contra hcon
                rw [List.getElem?_eq_none (by omega)] at h4
                exact Option.noConfusion h4
              show (s.proxies ++ _)[x]? = _
              rw [List.getElem?_append_left h2]
              exact h4
            | none =>
              simp only [hl2] at hp
              by_cases hr : r2 = r
              · subst hr
                simp only [if_true, Option.some.injEq] at hp
                subst hp
                refine ⟨h, ?_, hh⟩
                show (s.proxies ++ _)[s.proxies.length]? = _
                simp
              · simp [hr] at hp
        | false =>
          simp only [Bool.false_eq_true, if_false] at hl hh ⊢
          refine ⟨hs.current, ?_, ?_, hs.log⟩
          · intro r2 p2 hp
            change (s.reactiveMap ++ [(r, s.proxies.length)]).lookup r2 = some p2 at hp
            rw [lookup_append_single] at hp
            cases hl2 : s.reactiveMap.lookup r2 with
            | some x =>
              simp only [hl2, Option.some.injEq] at hp
              subst hp
              have h4 := hs.reactiveCache r2 x hl2
              have h2 : x < s.proxies.length := by
                by_contra hcon
                rw [List.getElem?_eq_none (by omega)] at h4
                exact Option.noConfusion h4
              show (s.proxies ++ _)[x]? = _
              rw [List.getElem?_append_left h2]
              exact h4
            | none =>
              simp only [hl2] at hp
              by_cases hr : r2 = r
              · subst hr
                simp only [if_true, Option.some.injEq] at hp
                subst hp
                show (s.proxies ++ _)[s.proxies.length]? = _
                simp [hh]
              · simp [hr] at hp
          · intro r2 p2 hp
            obtain ⟨h3, h4, h5⟩ := hs.readOnlyCache r2 p2 hp
            refine ⟨h3, ?_, h5⟩
            have h2 : p2 < s.proxies.length := by
              by_contra hcon
              rw [List.getElem?_eq_none (by omega)] at h4
              exact Option.noConfusion h4
            show (s.proxies ++ _)[p2]? = _
            rw [List.getElem?_append_left h2]
            exact h4
    | _ => simpa using hs

theorem depOf_congr (s1 s2 : State) (h : s1.targetMap = s2.targetMap) (t : Nat) (k : String) :
    depOf s1 t k = depOf s2 t k := by
  simp [depOf, h]

theorem Track_fields (s : State) (target : Nat) (key : String) :
    (Track s target key).heap = s.heap ∧ (Track s target key).effects = s.effects ∧
    (Track s target key).reactivrEffectStack = s.reactivrEffectStack ∧
    (Track s target key).currentReactiveEffect = s.currentReactiveEffect ∧
    (Track s target key).reactiveMap = s.reactiveMap ∧
    (Track s target key).readOnlyMap = s.readOnlyMap ∧
    (Track s target key).proxies = s.proxies ∧ (Track s target key).trace = s.trace := by
  unfold Track
  split <;> simp

/-- The invariant survives `Track` together with the trace entry of the read that
called it, and the trace entry of a read through a read-only trap alone. -/
theorem WF_read (isReadOnly : Bool) (s : State) (target : Nat) (key : String) (hs : WF s)
    (s0 : State)
    (h0 : s0 = { s with trace := s.trace ++ [.read s.currentReactiveEffect target key isReadOnly] }) :
    WF (if (!isReadOnly) = true then Track s0 target key else s0) := by
  have e1 : s0.currentReactiveEffect = s.currentReactiveEffect := by rw [h0]
  have e2 : s0.reactivrEffectStack = s.reactivrEffectStack := by rw [h0]
  have e3 : s0.reactiveMap = s.reactiveMap := by rw [h0]
  have e4 : s0.readOnlyMap = s.readOnlyMap := by rw [h0]
  have e5 : s0.proxies = s.proxies := by rw [h0]
  have e6 : s0.trace = s.trace ++ [.read s.currentReactiveEffect target key isReadOnly] := by
    rw [h0]
  have e7 : ∀ t k, depOf s0 t k = depOf s t k := fun t k => depOf_congr _ _ (by rw [h0]) t k
  cases isReadOnly with
  | true =>
    simp only [Bool.not_true, Bool.false_eq_true, if_false]
    refine ⟨by rw [e1, e2]; exact hs.current, by rw [e3, e5]; exact hs.reactiveCache,
      by rw [e4, e5]; exact hs.readOnlyCache, ?_⟩
    intro e t k
    rw [e7, e6, hs.log e t k]
    simp
  | false =>
    simp only [Bool.not_false, if_true]
    obtain ⟨_, _, f3, f4, f5, f6, f7, f8⟩ := Track_fields s0 target key
    refine ⟨by rw [f4, f3, e1, e2]; exact hs.current, by rw [f5, f7, e3, e5]; exact hs.reactiveCache,
      by rw [f6, f7, e4, e5]; exact hs.readOnlyCache, ?_⟩
    intro e t k
    rw [depOf_Track, f8, e6, e1]
    have hl := hs.log e t k
    cases s.currentReactiveEffect with
    | none =>
      simp only [List.mem_append, List.mem_singleton]
      rw [e7, hl]
      simp
    | some c =>
      simp only [List.mem_append, List.mem_singleton]
      by_cases htk : t = target ∧ k = key
      · obtain ⟨rfl, rfl⟩ := htk
        simp only [and_self, if_true, mem_setAdd]
        rw [e7, hl]
        simp
      · simp only [htk, if_false]
        rw [e7, hl]
        constructor
        · exact Or.inl
        · rintro (h | h)
          · exact h
          · simp only [Event.read.injEq, Option.some.injEq] at h
            exact absurd ⟨h.2.1, h.2.2.1⟩ htk

/-- The invariant survives a run of a `get` trap. -/
theorem WF_getCreator (isShallow isReadOnly : Bool) (s : State) (target : Nat) (key : String)
    (hs : WF s) : WF (getCreator isShallow isReadOnly s target key).2 := by
  have h1 := WF_read isReadOnly s target key hs _ rfl
  unfold getCreator
  simp only
  by_cases hw : (!isShallow && isObject (reflectGet s target key)) = true
  · simp only [hw, if_true]
    cases isReadOnly with
    | true =>
      simp only [if_true, asValue_snd]
      exact WF_createReactiveObject _ _ true readOnlyHandler (by simp [readOnlyHandler]) h1
    | false =>
      simp only [Bool.false_eq_true, if_false, asValue_snd]
      exact WF_createReactiveObject _ _ false reactiveHandler (by simp) h1
  · simp only [hw, Bool.false_eq_true, if_false]
    exact h1

/-- The invariant survives the evaluation of an expression. -/
theorem WF_evalExpr (e : Expr) : ∀ s, WF s → WF (evalExpr s e).2 := by
  induction e with
  | lit v => intro s hs; exact hs
  | reactive t =>
    intro s hs
    simp only [evalExpr, asValue_snd]
    exact WF_createReactiveObject _ _ false reactiveHandler (by simp) hs
  | readonly t =>
    intro s hs
    simp only [evalExpr, asValue_snd]
    exact WF_createReactiveObject _ _ true readOnlyHandler (by simp [readOnlyHandler]) hs
  | shallowReadonly t =>
    intro s hs
    simp only [evalExpr, asValue_snd]
    exact WF_createReactiveObject _ _ true shallowReadOnlyHandler
      (by simp [shallowReadOnlyHandler]) hs
  | get o key ih =>
    intro s hs
    have h1 := ih s hs
    simp only [evalExpr]
    cases he : evalExpr s o with
    | mk res s1 =>
      rw [he] at h1
      cases res with
      | error x => exact h1
      | ok v =>
        cases v with
        | proxy p =>
          simp only
          cases hp : s1.proxies[p]? with
          | none => exact h1
          | some px => exact WF_getCreator _ _ _ _ _ h1
        | raw w => cases w <;> exact h1

/-- The invariant holds in the state of a freshly loaded module. -/
theorem WF_init (heap : List (Nat × Fields)) : WF (State.init heap) := by
  refine ⟨rfl, ?_, ?_, ?_⟩
  · intro r p h
    simp [State.init, List.lookup] at h
  · intro r p h
    simp [State.init, List.lookup] at h
  · intro e t k
    simp [State.init, depOf, List.lookup]

/-- The invariant survives every run of code. -/
theorem WF_exec (n : Nat) (s : State) (cs : List Cmd) (r : Except Err Unit) (s' : State)
    (h : execBlock n s cs = some (r, s')) (hs : WF s) : WF s' := by
  refine (exec_rel (fun a b => WF a → WF b) (fun _ h => h) (fun _ _ _ h1 h2 h => h2 (h1 h))
    (fun s e => WF_evalExpr e s) ?_ ?_ ?_ ?_ n).1 s cs r s' h hs
  · intro s t k v hs
    refine ⟨hs.current, hs.reactiveCache, hs.readOnlyCache, ?_⟩
    intro e t2 k2
    rw [show depOf (reflectSet s t k v) t2 k2 = depOf s t2 k2 from rfl, hs.log]
    simp [reflectSet]
  · intro s e hs
    refine ⟨hs.current, hs.reactiveCache, hs.readOnlyCache, ?_⟩
    intro e2 t2 k2
    rw [show depOf (enterScheduler s e) t2 k2 = depOf s t2 k2 from rfl, hs.log]
    simp [enterScheduler]
  · intro s fn sc hs
    exact ⟨hs.current, hs.reactiveCache, hs.readOnlyCache, hs.log⟩
  · intro s e s2 _ h12 hs
    have h1 : WF (enterEffect s e) := by
      refine ⟨by simp [enterEffect], hs.reactiveCache, hs.readOnlyCache, ?_⟩
      intro e2 t2 k2
      rw [show depOf (enterEffect s e) t2 k2 = depOf s t2 k2 from rfl, hs.log]
      simp [enterEffect]
    have h2 := h12 h1
    exact ⟨rfl, h2.reactiveCache, h2.readOnlyCache, h2.log⟩

/-! ## Reactivity: wrappers -/

theorem isObject_obj (r : Nat) : isObject (.obj r) = true := by
  simp [isObject, toStringTag]

/-- A cache hit of `createReactiveObject` (lines 205-207). -/
theorem createReactiveObject_hit (s : State) (r : Nat) (isReadOnly : Bool) (h : Handler)
    (p : Nat) (hl : (if isReadOnly then s.readOnlyMap else s.reactiveMap).lookup r = some p) :
    createReactiveObject s (.obj r) isReadOnly h = (.ok p, s) := by
  unfold createReactiveObject
  simp only [isObject_obj, bne_self_eq_false, Bool.false_eq_true, if_false]
  rw [hl]

/-- A cache miss of `createReactiveObject` for a read-only wrapper (lines 209-211). -/
theorem createReactiveObject_miss_ro (s : State) (r : Nat) (h : Handler)
    (hl : s.readOnlyMap.lookup r = none) :
    createReactiveObject s (.obj r) true h =
      (.ok s.proxies.length,
        { s with proxies := s.proxies ++ [{ target := r, handler := h }],
                 readOnlyMap := s.readOnlyMap ++ [(r, s.proxies.length)] }) := by
  unfold createReactiveObject
  simp only [isObject_obj, bne_self_eq_false, Bool.false_eq_true, if_false, if_true]
  rw [hl]

/-- A cache miss of `createReactiveObject` for a mutable wrapper (lines 209-211). -/
theorem createReactiveObject_miss_rw (s : State) (r : Nat) (h : Handler)
    (hl : s.reactiveMap.lookup r = none) :
    createReactiveObject s (.obj r) false h =
      (.ok s.proxies.length,
        { s with proxies := s.proxies ++ [{ target := r, handler := h }],
                 reactiveMap := s.reactiveMap ++ [(r, s.proxies.length)] }) := by
  unfold createReactiveObject
  simp only [isObject_obj, bne_self_eq_false, Bool.false_eq_true, if_false]
  rw [hl]

/-- On a plain object `createReactiveObject` returns a wrapper, which its cache then
holds; it changes nothing but the cache and the list of wrappers. -/
theorem createReactiveObject_obj (s : State) (r : Nat) (isReadOnly : Bool) (h : Handler) :
    ∃ p, createReactiveObject s (.obj r) isReadOnly h
        = (.ok p, (createReactiveObject s (.obj r) isReadOnly h).2) ∧
      (if isReadOnly then (createReactiveObject s (.obj r) isReadOnly h).2.readOnlyMap
        else (createReactiveObject s (.obj r) isReadOnly h).2.reactiveMap).lookup r = some p ∧
      (createReactiveObject s (.obj r) isReadOnly h).2.heap = s.heap ∧
      (createReactiveObject s (.obj r) isReadOnly h).2.trace = s.trace ∧
      (createReactiveObject s (.obj r) isReadOnly h).2.targetMap = s.targetMap ∧
      (createReactiveObject s (.obj r) isReadOnly h).2.effects = s.effects ∧
      (createReactiveObject s (.obj r) isReadOnly h).2.reactivrEffectStack
        = s.reactivrEffectStack ∧
      (createReactiveObject s (.obj r) isReadOnly h).2.currentReactiveEffect
        = s.currentReactiveEffect := by
  cases hl : (if isReadOnly = true then s.readOnlyMap else s.reactiveMap).lookup r with
  | some p =>
    rw [createReactiveObject_hit s r isReadOnly h p hl]
    exact ⟨p, rfl, hl, rfl, rfl, rfl, rfl, rfl, rfl⟩
  | none =>
    cases isReadOnly with
    | true =>
      simp only [if_true] at hl
      rw [createReactiveObject_miss_ro s r h hl]
      refine ⟨s.proxies.length, rfl, ?_, rfl, rfl, rfl, rfl, rfl, rfl⟩
      simp only [if_true]
      rw [lookup_append_single, hl]
      simp
    | false =>
      simp only [Bool.false_eq_true, if_false] at hl
      rw [createReactiveObject_miss_rw s r h hl]
      refine ⟨s.proxies.length, rfl, ?_, rfl, rfl, rfl, rfl, rfl, rfl⟩
      simp only [Bool.false_eq_true, if_false]
      rw [lookup_append_single, hl]
      simp

/-! ## Reactivity: what reads and runs leave unchanged -/

theorem SameButReads.refl (a : State) : SameButReads a a :=
  ⟨rfl, rfl, rfl, rfl, fun _ => rfl⟩

theorem SameButReads.trans {a b c : State} (h1 : SameButReads a b) (h2 : SameButReads b c) :
    SameButReads a c :=
  ⟨h2.1.trans h1.1, h2.2.1.trans h1.2.1, h2.2.2.1.trans h1.2.2.1, h2.2.2.2.1.trans h1.2.2.2.1,
    fun x => (h2.2.2.2.2 x).trans (h1.2.2.2.2 x)⟩

theorem createReactiveObject_same (s : State) (target : Val) (isReadOnly : Bool) (h : Handler) :
    SameButReads s (createReactiveObject s target isReadOnly h).2 := by
  unfold createReactiveObject
  split
  · exact SameButReads.refl s
  · split
    · split
      · exact SameButReads.refl s
      · split <;> exact ⟨rfl, rfl, rfl, rfl, fun _ => rfl⟩
    · exact SameButReads.refl s

theorem getCreator_same (isShallow isReadOnly : Bool) (s : State) (target : Nat) (key : String) :
    SameButReads s (getCreator isShallow isReadOnly s target key).2 := by
  have h0 : SameButReads s
      { s with trace := s.trace ++ [.read s.currentReactiveEffect target key isReadOnly] } :=
    ⟨rfl, rfl, rfl, rfl, fun x => by simp [fnCount, List.count_append]⟩
  have h1 : SameButReads s (if (!isReadOnly) = true then
      Track { s with trace := s.trace ++ [.read s.currentReactiveEffect target key isReadOnly] }
        target key
      else { s with trace := s.trace ++ [.read s.currentReactiveEffect target key isReadOnly] }) := by
    split
    · obtain ⟨f1, f2, f3, f4, _, _, _, f8⟩ := Track_fields
        { s with trace := s.trace ++ [.read s.currentReactiveEffect target key isReadOnly] }
        target key
      exact ⟨f1, f2, f3, f4, fun x => by simp [fnCount, f8, List.count_append]⟩
    · exact h0
  unfold getCreator
  simp only
  split
  · split
    · rw [asValue_snd]
      exact h1.trans (createReactiveObject_same _ _ _ _)
    · rw [asValue_snd]
      exact h1.trans (createReactiveObject_same _ _ _ _)
  · exact h1

theorem evalExpr_same (e : Expr) : ∀ s, SameButReads s (evalExpr s e).2 := by
  induction e with
  | lit v => intro s; exact SameButReads.refl s
  | reactive t =>
    intro s
    simp only [evalExpr, asValue_snd]
    exact createReactiveObject_same _ _ _ _
  | readonly t =>
    intro s
    simp only [evalExpr, asValue_snd]
    exact createReactiveObject_same _ _ _ _
  | shallowReadonly t =>
    intro s
    simp only [evalExpr, asValue_snd]
    exact createReactiveObject_same _ _ _ _
  | get o key ih =>
    intro s
    have h1 := ih s
    simp only [evalExpr]
    cases he : evalExpr s o with
    | mk res s1 =>
      rw [he] at h1
      cases res with
      | error x => exact h1
      | ok v =>
        cases v with
        | proxy p =>
          simp only
          cases hp : s1.proxies[p]? with
          | none => exact h1
          | some px => exact h1.trans (getCreator_same _ _ _ _ _)
        | raw w => cases w <;> exact h1

/-- Every run of code leaves the effect stack as it found it. -/
theorem exec_stack (n : Nat) :
    (∀ s cs r s', execBlock n s cs = some (r, s') →
      s'.reactivrEffectStack = s.reactivrEffectStack) ∧
    (∀ s e r s', reactiveEffect n s e = some (r, s') →
      s'.reactivrEffectStack = s.reactivrEffectStack) := by
  have h := exec_rel (fun a b => b.reactivrEffectStack = a.reactivrEffectStack)
    (fun _ => rfl) (fun _ _ _ h1 h2 => h2.trans h1)
    (fun s e => (evalExpr_same e s).2.2.1) (fun _ _ _ _ => rfl) (fun _ _ => rfl)
    (fun _ _ _ => rfl)
    (fun s e s2 _ h12 => by
      show s2.reactivrEffectStack.dropLast = s.reactivrEffectStack
      rw [h12]
      simp [enterEffect]) n
  exact ⟨h.1, h.2.2.2.2.2.1⟩

/-! ## Reactivity: runs of code that performs no writes -/

/-- Code that performs no writes comes to an end, and leaves heap, effects, stack,
current effect and the count of started computations as they were. -/
theorem noWrites_run (cs : List Cmd) (h : NoWrites cs) :
    ∃ N, ∀ n, N ≤ n → ∀ s, ∃ r s', execBlock n s cs = some (r, s') ∧ SameButReads s s' := by
  induction h with
  | nil =>
    refine ⟨1, fun n hn s => ?_⟩
    obtain ⟨m, rfl⟩ : ∃ m, n = m + 1 := ⟨n - 1, by omega⟩
    exact ⟨.ok (), s, rfl, SameButReads.refl s⟩
  | @eval e rest _ ih =>
    obtain ⟨N, hN⟩ := ih
    refine ⟨N + 2, fun n hn s => ?_⟩
    obtain ⟨m, rfl⟩ : ∃ m, n = m + 2 := ⟨n - 2, by omega⟩
    have h1 := evalExpr_same e s
    simp only [execBlock, execCmd]
    cases he : evalExpr s e with
    | mk res s1 =>
      rw [he] at h1
      cases res with
      | error x => exact ⟨_, _, rfl, h1⟩
      | ok v =>
        obtain ⟨r, s', h2, h3⟩ := hN (m + 1) (by omega) s1
        exact ⟨r, s', h2, h1.trans h3⟩
  | @ite c t f rest _ _ _ iht ihf ihr =>
    obtain ⟨Nt, hNt⟩ := iht
    obtain ⟨Nf, hNf⟩ := ihf
    obtain ⟨Nr, hNr⟩ := ihr
    refine ⟨Nt + Nf + Nr + 2, fun n hn s => ?_⟩
    obtain ⟨m, rfl⟩ : ∃ m, n = m + 2 := ⟨n - 2, by omega⟩
    have h1 := evalExpr_same c s
    simp only [execBlock, execCmd]
    cases he : evalExpr s c with
    | mk res s1 =>
      rw [he] at h1
      cases res with
      | error x => exact ⟨_, _, rfl, h1⟩
      | ok v =>
        simp only
        have hbranch : ∃ r2 s2, (if v.truthy = true then execBlock m s1 t else execBlock m s1 f)
            = some (r2, s2) ∧ SameButReads s1 s2 := by
          split
          · exact hNt m (by omega) s1
          · exact hNf m (by omega) s1
        obtain ⟨r2, s2, h2, h3⟩ := hbranch
        rw [h2]
        cases r2 with
        | error x => exact ⟨_, _, rfl, h1.trans h3⟩
        | ok u =>
          obtain ⟨r, s', h4, h5⟩ := hNr (m + 1) (by omega) s2
          exact ⟨r, s', h4, (h1.trans h3).trans h5⟩
  | @throw tag rest _ _ =>
    refine ⟨2, fun n hn s => ?_⟩
    obtain ⟨m, rfl⟩ : ∃ m, n = m + 2 := ⟨n - 2, by omega⟩
    exact ⟨_, _, rfl, SameButReads.refl s⟩

theorem fnCount_enterEffect (s : State) (e x : Nat) :
    fnCount (enterEffect s e) x = fnCount s x + if x = e then 1 else 0 := by
  by_cases h : x = e
  · subst h
    simp [fnCount, enterEffect, List.count_append]
  · have h2 : ¬ (e = x) := fun h3 => h h3.symm
    simp [fnCount, enterEffect, List.count_append, h, h2]

theorem fnCount_leaveEffect (s : State) (x : Nat) : fnCount (leaveEffect s) x = fnCount s x :=
  rfl

theorem fnCount_enterScheduler (s : State) (e x : Nat) :
    fnCount (enterScheduler s e) x = fnCount s x := by
  simp [fnCount, enterScheduler, List.count_append]

/-- The loop of `Trigger` over effects that are all quiet comes to an end; it leaves
effects and stack as they were, starts the computation of an effect at most as
often as the effect occurs in the list, not at all when the effect is on the stack,
and, when no error ends it, exactly as often as it occurs when the effect has no
scheduler and is not on the stack. -/
theorem triggerEach_quiet (effects : List ReactiveEffect) (stack : List Nat) (es : List Nat)
    (hq : ∀ e ∈ es, Quiet effects stack e) :
    ∃ N, ∀ n, N ≤ n → ∀ s, s.effects = effects → s.reactivrEffectStack = stack →
      ∃ r s', triggerEach n s es = some (r, s') ∧
        s'.effects = effects ∧ s'.reactivrEffectStack = stack ∧
        (∀ x, fnCount s' x ≤ fnCount s x + es.count x) ∧
        (∀ x ∈ stack, fnCount s' x = fnCount s x) ∧
        (r = .ok () → ∀ x eff, effects[x]? = some eff → eff.scheduler = none → x ∉ stack →
          fnCount s' x = fnCount s x + es.count x) := by
  induction es with
  | nil =>
    refine ⟨1, fun n hn s he hs => ?_⟩
    obtain ⟨m, rfl⟩ : ∃ m, n = m + 1 := ⟨n - 1, by omega⟩
    exact ⟨.ok (), s, rfl, he, hs, fun x => by simp, fun x _ => rfl,
      fun _ x eff _ _ _ => by simp⟩
  | cons e rest ih =>
    obtain ⟨Nr, hNr⟩ := ih (fun x hx => hq x (List.mem_cons_of_mem e hx))
    have hqe := hq e (List.mem_cons_self e rest)
    -- the effect record
    have hex : ∃ eff, effects[e]? = some eff := by
      rcases hqe with ⟨eff, h1, _⟩ | ⟨eff, h1, _⟩ <;> exact ⟨eff, h1⟩
    obtain ⟨eff, heff⟩ := hex
    -- one step: the call of the scheduler or of the effect
    have step : ∃ N1, ∀ n, N1 ≤ n → ∀ s, s.effects = effects → s.reactivrEffectStack = stack →
        ∃ r1 s1, (match eff.scheduler with
            | some scheduler => execBlock n (enterScheduler s e) scheduler
            | none => reactiveEffect n s e) = some (r1, s1) ∧
          s1.effects = effects ∧ s1.reactivrEffectStack = stack ∧
          (∀ x, fnCount s1 x = fnCount s x +
            if x = e ∧ eff.scheduler.isNone = true ∧ e ∉ stack then 1 else 0) := by
      cases hsc : eff.scheduler with
      | some sc =>
        have hnw : NoWrites sc := by
          rcases hqe with ⟨eff2, h1, _, h3⟩ | ⟨eff2, h1, h2, _⟩
          · rw [heff] at h1
            cases h1
            exact h3 sc hsc
          · rw [heff] at h1
            cases h1
            rw [hsc] at h2
            exact Option.noConfusion h2
        obtain ⟨N1, hN1⟩ := noWrites_run sc hnw
        refine ⟨N1, fun n hn s he hs => ?_⟩
        obtain ⟨r1, s1, h1, h2⟩ := hN1 n hn (enterScheduler s e)
        refine ⟨r1, s1, h1, h2.2.1.trans he, h2.2.2.1.trans hs, fun x => ?_⟩
        rw [h2.2.2.2.2 x, fnCount_enterScheduler]
        simp
      | none =>
        by_cases hon : e ∈ stack
        · refine ⟨1, fun n hn s he hs => ?_⟩
          obtain ⟨m, rfl⟩ : ∃ m, n = m + 1 := ⟨n - 1, by omega⟩
          have hc : s.reactivrEffectStack.contains e = true := by
            rw [hs]
            simpa using hon
          refine ⟨.ok (), s, by simp only [reactiveEffect, hc, if_true], he, hs, fun x => ?_⟩
          simp [hon]
        · have hnw : NoWrites eff.fn := by
            rcases hqe with ⟨eff2, h1, h2, _⟩ | ⟨eff2, h1, _, h3⟩
            · rw [heff] at h1
              cases h1
              exact h2
            · exact absurd h3 hon
          obtain ⟨N1, hN1⟩ := noWrites_run eff.fn hnw
          refine ⟨N1 + 1, fun n hn s he hs => ?_⟩
          obtain ⟨m, rfl⟩ : ∃ m, n = m + 1 := ⟨n - 1, by omega⟩
          have hc : s.reactivrEffectStack.contains e = false := by
            rw [hs]
            simpa using hon
          obtain ⟨r1, s2, h1, h2⟩ := hN1 m (by omega) (enterEffect s e)
          refine ⟨r1, leaveEffect s2, ?_, ?_, ?_, fun x => ?_⟩
          · simp only [reactiveEffect, hc, Bool.false_eq_true, if_false, he, heff, h1]
          · exact h2.2.1.trans he
          · show s2.reactivrEffectStack.dropLast = stack
            rw [h2.2.2.1]
            simp [enterEffect, hs]
          · rw [fnCount_leaveEffect, h2.2.2.2.2 x, fnCount_enterEffect]
            simp [hon]
    obtain ⟨N1, hN1⟩ := step
    refine ⟨N1 + Nr + 1, fun n hn s he hs => ?_⟩
    obtain ⟨m, rfl⟩ : ∃ m, n = m + 1 := ⟨n - 1, by omega⟩
    obtain ⟨r1, s1, h1, h2, h3, h4⟩ := hN1 m (by omega) s he hs
    have hle : ∀ x, (if x = e ∧ eff.scheduler.isNone = true ∧ e ∉ stack then 1 else 0)
        ≤ (e :: rest).count x := by
      intro x
      split
      · rename_i hx
        rw [hx.1]
        simp
      · omega
    simp only [triggerEach, he, heff, h1]
    cases r1 with
    | error err =>
      refine ⟨_, _, rfl, h2, h3, fun x => ?_, fun x hx => ?_, fun hr => ?_⟩
      · rw [h4 x]
        have := hle x
        omega
      · rw [h4 x]
        have : ¬ (x = e ∧ eff.scheduler.isNone = true ∧ e ∉ stack) := by
          rintro ⟨rfl, _, h5⟩
          exact h5 hx
        rw [if_neg this]
        rfl
      · exact Except.noConfusion hr
    | ok u =>
      obtain ⟨r, s', h5, h6, h7, h8, h9, h10⟩ := hNr m (by omega) s1 h2 h3
      have hcount : ∀ x, (e :: rest).count x = rest.count x + if x = e then 1 else 0 := by
        intro x
        by_cases hx : x = e
        · subst hx
          simp
        · have h2 : ¬ (e = x) := fun h3 => hx h3.symm
          simp [List.count_cons, hx, h2]
      refine ⟨r, s', h5, h6, h7, fun x => ?_, fun x hx => ?_, fun hr x effx hx1 hx2 hx3 => ?_⟩
      · have a1 := h8 x
        rw [h4 x] at a1
        rw [hcount x]
        have : (if x = e ∧ eff.scheduler.isNone = true ∧ e ∉ stack then 1 else 0)
            ≤ (if x = e then 1 else 0) := by
          by_cases hx : x = e <;> simp [hx]
          split <;> omega
        omega
      · rw [h9 x hx, h4 x]
        have : ¬ (x = e ∧ eff.scheduler.isNone = true ∧ e ∉ stack) := by
          rintro ⟨rfl, _, h5⟩
          exact h5 hx
        rw [if_neg this]
        rfl
      · rw [h10 hr x effx hx1 hx2 hx3, h4 x, hcount x]
        by_cases hx : x = e
        · subst hx
          rw [heff] at hx1
          cases hx1
          simp [hx2, hx3]
          omega
        · simp [hx]

/-! ## Reactivity: a write and the effects it notifies -/

theorem mem_foldl_setAdd (dep : List Nat) : ∀ acc x,
    x ∈ dep.foldl setAdd acc ↔ x ∈ acc ∨ x ∈ dep := by
  induction dep with
  | nil => intro acc x; simp
  | cons d rest ih =>
    intro acc x
    simp only [List.foldl_cons, ih, mem_setAdd, List.mem_cons]
    tauto

theorem nodup_foldl_setAdd (dep : List Nat) : ∀ acc, acc.Nodup → (dep.foldl setAdd acc).Nodup := by
  induction dep with
  | nil => intro acc h; simpa using h
  | cons d rest ih =>
    intro acc h
    simp only [List.foldl_cons]
    apply ih
    unfold setAdd
    split
    · exact h
    · rename_i hd
      have hd2 : d ∉ acc := by simpa using hd
      exact List.Nodup.append h (List.nodup_singleton d) (by
        intro a ha hb
        rw [List.mem_singleton] at hb
        subst hb
        exact hd2 ha)

/-- The copy `effectSet` of lines 143-146 holds each registered effect once. -/
theorem count_effectSet (dep : List Nat) (x : Nat) :
    (dep.foldl setAdd []).count x = if x ∈ dep then 1 else 0 := by
  rw [List.count_eq_of_nodup (nodup_foldl_setAdd dep [] List.nodup_nil)]
  simp [mem_foldl_setAdd]

/-- `Trigger` on a field whose registered effects are all quiet comes to an end,
leaves effects and stack as they were, starts the computation of each effect at
most once, and, when no error ends it, exactly once for a registered effect that
has no scheduler and is not on the stack. -/
theorem Trigger_quiet (s : State) (target : Nat) (key : String)
    (hq : ∀ x ∈ depOf s target key, Quiet s.effects s.reactivrEffectStack x) :
    ∃ N, ∀ n, N ≤ n → ∃ r s', Trigger n s target key = some (r, s') ∧
      s'.effects = s.effects ∧ s'.reactivrEffectStack = s.reactivrEffectStack ∧
      (∀ x, fnCount s' x ≤ fnCount s x + if x ∈ depOf s target key then 1 else 0) ∧
      (∀ x ∈ s.reactivrEffectStack, fnCount s' x = fnCount s x) ∧
      (r = .ok () → ∀ x eff, s.effects[x]? = some eff → eff.scheduler = none →
        x ∉ s.reactivrEffectStack → x ∈ depOf s target key →
        fnCount s' x = fnCount s x + 1) := by
  cases hm : s.targetMap.lookup target with
  | none =>
    refine ⟨1, fun n hn => ?_⟩
    obtain ⟨m, rfl⟩ : ∃ m, n = m + 1 := ⟨n - 1, by omega⟩
    have hd : depOf s target key = [] := by simp [depOf, hm]
    refine ⟨.ok (), s, by simp only [Trigger, hm], rfl, rfl, fun x => by omega, fun _ _ => rfl, ?_⟩
    intro _ x eff _ _ _ hx
    rw [hd] at hx
    exact absurd hx (List.not_mem_nil x)
  | some depMap =>
    cases hk : depMap.lookup key with
    | none =>
      refine ⟨1, fun n hn => ?_⟩
      obtain ⟨m, rfl⟩ : ∃ m, n = m + 1 := ⟨n - 1, by omega⟩
      refine ⟨.error Err.typeError, s, by simp only [Trigger, hm, hk], rfl, rfl,
        fun x => by omega, fun _ _ => rfl, fun hr => Except.noConfusion hr⟩
    | some dep =>
      have hd : depOf s target key = dep := by simp [depOf, hm, hk]
      rw [hd] at hq ⊢
      obtain ⟨N, hN⟩ := triggerEach_quiet s.effects s.reactivrEffectStack (dep.foldl setAdd [])
        (fun x hx => hq x (by
          have := (mem_foldl_setAdd dep [] x).mp hx
          simpa using this))
      refine ⟨N + 1, fun n hn => ?_⟩
      obtain ⟨m, rfl⟩ : ∃ m, n = m + 1 := ⟨n - 1, by omega⟩
      obtain ⟨r, s', h1, h2, h3, h4, h5, h6⟩ := hN m (by omega) s rfl rfl
      refine ⟨r, s', by simp only [Trigger, hm, hk, h1], h2, h3, fun x => ?_, h5, ?_⟩
      · have := h4 x
        rw [count_effectSet] at this
        exact this
      · intro hr x eff hx1 hx2 hx3 hx4
        have := h6 hr x eff hx1 hx2 hx3
        rw [count_effectSet, if_pos hx4] at this
        exact this

/-- A write through `reactive(target)` to a field whose registered effects are all
quiet comes to an end, leaves effects and stack as they were, starts the computation
of each effect at most once, not at all for an effect on the stack, and, when no
error ends it, exactly once for a registered effect that has no scheduler and is not
on the stack. -/
theorem write_quiet (s : State) (target : Nat) (key : String) (val : Val) (hs : WF s)
    (hq : ∀ x ∈ depOf s target key, Quiet s.effects s.reactivrEffectStack x) :
    ∃ N, ∀ n, N ≤ n → ∃ r s',
      execCmd n s (.assign (.reactive (.obj target)) key val) = some (r, s') ∧
      s'.effects = s.effects ∧ s'.reactivrEffectStack = s.reactivrEffectStack ∧
      (∀ x, fnCount s' x ≤ fnCount s x + if x ∈ depOf s target key then 1 else 0) ∧
      (∀ x ∈ s.reactivrEffectStack, fnCount s' x = fnCount s x) ∧
      (r = .ok () → ∀ x eff, s.effects[x]? = some eff → eff.scheduler = none →
        x ∉ s.reactivrEffectStack → x ∈ depOf s target key →
        fnCount s' x = fnCount s x + 1) := by
  obtain ⟨p, h1, h2, h3, h4, h5, h6, h7, h8⟩ :=
    createReactiveObject_obj s target false reactiveHandler
  have hw : WF (reactive s (.obj target)).2 :=
    WF_createReactiveObject _ _ false reactiveHandler (by simp) hs
  have hp := hw.reactiveCache target p h2
  have e6 : (reactive s (.obj target)).2.effects = s.effects := h6
  have e7 : (reactive s (.obj target)).2.reactivrEffectStack = s.reactivrEffectStack := h7
  have e4 : (reactive s (.obj target)).2.trace = s.trace := h4
  have hdep : ∀ t k, depOf (reflectSet (reactive s (.obj target)).2 target key val) t k
      = depOf s t k := fun t k => depOf_congr _ _ h5 t k
  have f6 : (reflectSet (reactive s (.obj target)).2 target key val).effects = s.effects := e6
  have f7 : (reflectSet (reactive s (.obj target)).2 target key val).reactivrEffectStack
      = s.reactivrEffectStack := e7
  have hq2 : ∀ x ∈ depOf (reflectSet (reactive s (.obj target)).2 target key val) target key,
      Quiet (reflectSet (reactive s (.obj target)).2 target key val).effects
        (reflectSet (reactive s (.obj target)).2 target key val).reactivrEffectStack x := by
    intro x hx
    rw [hdep] at hx
    rw [f6, f7]
    exact hq x hx
  obtain ⟨N, hN⟩ := Trigger_quiet _ target key hq2
  refine ⟨N + 2, fun n hn => ?_⟩
  obtain ⟨m, rfl⟩ : ∃ m, n = m + 2 := ⟨n - 2, by omega⟩
  obtain ⟨r, s', g1, g2, g3, g4, g5, g6⟩ := hN m (by omega)
  have hcount : ∀ x, fnCount (reflectSet (reactive s (.obj target)).2 target key val) x
      = fnCount s x := by
    intro x
    simp [fnCount, reflectSet, e4, List.count_append]
  have hexec : execCmd (m + 2) s (.assign (.reactive (.obj target)) key val) = some (r, s') := by
    have he : evalExpr s (.reactive (.obj target))
        = (.ok (.proxy p), (reactive s (.obj target)).2) := by
      show asValue (reactive s (.obj target)) = _
      have : reactive s (.obj target) = (.ok p, (reactive s (.obj target)).2) := h1
      rw [this]
      rfl
    simp only [execCmd, he, hp, reactiveHandler, setCreator, Bool.false_eq_true, if_false]
    exact g1
  rw [f6] at g2 g6
  rw [f7] at g3 g5 g6
  refine ⟨r, s', hexec, g2, g3, fun x => ?_, fun x hx => ?_, fun hr x eff a1 a2 a3 a4 => ?_⟩
  · have := g4 x
    rw [hdep, hcount] at this
    exact this
  · rw [g5 x hx, hcount]
  · have := g6 hr x eff a1 a2 a3 (by rw [hdep]; exact a4)
    rw [hcount] at this
    exact this

/-- The invariant holds in the example state with one registered effect. -/
theorem WF_exampleTracked : WF exampleTracked := by
  refine ⟨rfl, ?_, ?_, ?_⟩
  · intro r p h
    by_cases hr : r = 0
    · subst hr
      simp [exampleTracked, List.lookup] at h
      subst h
      rfl
    · have h2 : (r == 0) = false := by simpa using hr
      simp [exampleTracked, List.lookup, h2] at h
  · intro r p h
    simp [exampleTracked, List.lookup] at h
  · intro e t k
    by_cases ht : t = 0
    · subst ht
      by_cases hk : k = "a"
      · subst hk
        simp [exampleTracked, depOf, List.lookup]
      · have h2 : (k == "a") = false := by simpa using hk
        simp [exampleTracked, depOf, List.lookup, h2, hk]
    · have h2 : (t == 0) = false := by simpa using ht
      simp [exampleTracked, depOf, List.lookup, h2, ht]

/-- The example state with one registered effect is what the run of `effect` reaches
in a fresh module, field by field (the effect functions by their number). -/
theorem exampleTracked_reached :
    observe (execBlock 20 (State.init exampleHeap)
        [.effect [.eval (.get (.reactive (.obj 0)) "a")] false none])
      = some (Observation.mk none exampleTracked.trace exampleTracked.targetMap
          exampleTracked.heap) ∧
    internals (execBlock 20 (State.init exampleHeap)
        [.effect [.eval (.get (.reactive (.obj 0)) "a")] false none])
      = some exampleTracked.internals := by
  decide!

/-! ## Reactivity: an effect that triggers itself -/

theorem createReactiveObject_targetMap (s : State) (target : Val) (isReadOnly : Bool)
    (h : Handler) : (createReactiveObject s target isReadOnly h).2.targetMap = s.targetMap := by
  unfold createReactiveObject
  split
  · rfl
  · split
    · split
      · rfl
      · split <;> rfl
    · rfl

/-- A run of a `get` trap registers at most the current effect. -/
theorem getCreator_deps (isShallow isReadOnly : Bool) (s : State) (target : Nat) (key : String)
    (x t : Nat) (k : String)
    (hx : x ∈ depOf (getCreator isShallow isReadOnly s target key).2 t k) :
    x ∈ depOf s t k ∨ s.currentReactiveEffect = some x := by
  have h1 : ∀ s1 : State, s1.targetMap = (if (!isReadOnly) = true then
      Track { s with trace := s.trace ++ [.read s.currentReactiveEffect target key isReadOnly] }
        target key
      else { s with trace := s.trace ++ [.read s.currentReactiveEffect target key isReadOnly] }).targetMap →
      x ∈ depOf s1 t k → x ∈ depOf s t k ∨ s.currentReactiveEffect = some x := by
    intro s1 hs1 hm
    rw [depOf_congr s1 _ hs1] at hm
    split at hm
    · rw [depOf_Track] at hm
      show x ∈ depOf s t k ∨ s.currentReactiveEffect = some x
      cases hc : s.currentReactiveEffect with
      | none =>
        simp only [hc] at hm
        exact Or.inl hm
      | some c =>
        simp only [hc] at hm
        split at hm
        · rw [mem_setAdd] at hm
          rename_i htk
          rcases hm with hm | hm
          · left
            rw [htk.1, htk.2]
            exact hm
          · right
            rw [hm]
        · exact Or.inl hm
    · exact Or.inl hm
  unfold getCreator at hx
  simp only at hx
  split at hx
  · split at hx
    · exact h1 _ (by rw [asValue_snd]; exact createReactiveObject_targetMap _ _ _ _) hx
    · exact h1 _ (by rw [asValue_snd]; exact createReactiveObject_targetMap _ _ _ _) hx
  · exact h1 _ rfl hx

/-- The evaluation of an expression registers at most the current effect. -/
theorem evalExpr_deps (E : Expr) : ∀ (s : State) (x t : Nat) (k : String),
    x ∈ depOf (evalExpr s E).2 t k → x ∈ depOf s t k ∨ s.currentReactiveEffect = some x := by
  induction E with
  | lit v => intro s x t k h; exact Or.inl h
  | reactive tg =>
    intro s x t k h
    simp only [evalExpr, asValue_snd, reactive, readonly, shallowReadonly] at h
    rw [depOf_congr _ s (createReactiveObject_targetMap _ _ _ _)] at h
    exact Or.inl h
  | readonly tg =>
    intro s x t k h
    simp only [evalExpr, asValue_snd, reactive, readonly, shallowReadonly] at h
    rw [depOf_congr _ s (createReactiveObject_targetMap _ _ _ _)] at h
    exact Or.inl h
  | shallowReadonly tg =>
    intro s x t k h
    simp only [evalExpr, asValue_snd, reactive, readonly, shallowReadonly] at h
    rw [depOf_congr _ s (createReactiveObject_targetMap _ _ _ _)] at h
    exact Or.inl h
  | get o key ih =>
    intro s x t k h
    have h1 := ih s x t k
    have hc := (evalExpr_same o s).2.2.2.1
    simp only [evalExpr] at h
    cases he : evalExpr s o with
    | mk res s1 =>
      rw [he] at h h1 hc
      simp only at hc
      cases res with
      | error err => exact h1 h
      | ok v =>
        cases v with
        | proxy p =>
          simp only at h
          cases hp : s1.proxies[p]? with
          | none =>
            rw [hp] at h
            exact h1 h
          | some px =>
            rw [hp] at h
            rcases getCreator_deps _ _ _ _ _ _ _ _ h with h2 | h2
            · exact h1 h2
            · right
              rw [← hc]
              exact h2
        | raw w => cases w <;> exact h1 h

theorem WF_enterEffect (s : State) (e : Nat) (hs : WF s) : WF (enterEffect s e) := by
  refine ⟨by simp [enterEffect], hs.reactiveCache, hs.readOnlyCache, ?_⟩
  intro e2 t2 k2
  rw [show depOf (enterEffect s e) t2 k2 = depOf s t2 k2 from rfl, hs.log]
  simp [enterEffect]

/-! ## Reactivity: nested objects -/

theorem createReactiveObject_trace (s : State) (target : Val) (isReadOnly : Bool)
    (h : Handler) : (createReactiveObject s target isReadOnly h).2.trace = s.trace := by
  unfold createReactiveObject
  split
  · rfl
  · split
    · split
      · rfl
      · split <;> rfl
    · rfl

/-- A run of a `get` trap adds its own entry to the trace and nothing else. -/
theorem getCreator_trace (isShallow isReadOnly : Bool) (s : State) (target : Nat)
    (key : String) :
    (getCreator isShallow isReadOnly s target key).2.trace
      = s.trace ++ [.read s.currentReactiveEffect target key isReadOnly] := by
  have h1 : (if (!isReadOnly) = true then
      Track { s with trace := s.trace ++ [.read s.currentReactiveEffect target key isReadOnly] }
        target key
      else { s with trace := s.trace ++ [.read s.currentReactiveEffect target key isReadOnly] }).trace
      = s.trace ++ [.read s.currentReactiveEffect target key isReadOnly] := by
    split
    · exact (Track_fields _ target key).2.2.2.2.2.2.2
    · rfl
  unfold getCreator
  simp only
  split
  · split <;> simp only [asValue_snd, readonly, reactive, createReactiveObject_trace, h1]
  · exact h1

/-- The dependency graph after a run of a `get` trap that was not built read-only is
the one `Track` leaves. -/
theorem getCreator_targetMap (isShallow : Bool) (s : State) (target : Nat) (key : String) :
    (getCreator isShallow false s target key).2.targetMap = (Track s target key).targetMap := by
  have h1 : (Track { s with trace := s.trace ++ [.read s.currentReactiveEffect target key false] }
      target key).targetMap = (Track s target key).targetMap := by
    unfold Track
    cases s.currentReactiveEffect <;> rfl
  unfold getCreator
  simp only [Bool.not_false, if_true, Bool.false_eq_true, if_false]
  split
  · simp only [asValue_snd, reactive, createReactiveObject_targetMap, h1]
  · exact h1

/-- A run of a `get` trap that was not built read-only completes normally. -/
theorem getCreator_ok (isShallow : Bool) (s : State) (target : Nat) (key : String) :
    ∃ v, getCreator isShallow false s target key
      = (.ok v, (getCreator isShallow false s target key).2) := by
  unfold getCreator
  simp only [Bool.not_false, if_true, Bool.false_eq_true, if_false]
  split
  · rename_i hw
    have ho : isObject (reflectGet s target key) = true := by
      simp only [Bool.and_eq_true] at hw
      exact hw.2
    cases hres : reflectGet s target key with
    | obj r =>
      obtain ⟨p, h1, _⟩ := createReactiveObject_obj
        (Track { s with trace := s.trace ++ [.read s.currentReactiveEffect target key false] }
          target key) r false reactiveHandler
      refine ⟨.proxy p, ?_⟩
      unfold reactive
      rw [h1]
      rfl
    | _ => rw [hres] at ho; simp [isObject, toStringTag] at ho
  · exact ⟨_, rfl⟩

/-- The wrapping call on a plain object as an expression result. -/
theorem asValue_reactive_obj (X : State) (nested : Nat) :
    ∃ q, asValue (reactive X (.obj nested))
        = (.ok (.proxy q), (asValue (reactive X (.obj nested))).2) ∧
      (asValue (reactive X (.obj nested))).2.reactiveMap.lookup nested = some q := by
  obtain ⟨q, g1, g2, _⟩ := createReactiveObject_obj X nested false reactiveHandler
  refine ⟨q, ?_, ?_⟩
  · unfold reactive
    rw [g1]
    rfl
  · rw [asValue_snd]
    exact g2

/-- A run of a mutable `get` trap on a field that holds a plain object returns the
wrapper the `reactive` cache then holds for that object. -/
theorem getCreator_obj (s : State) (target : Nat) (key : String) (nested : Nat)
    (hget : reflectGet s target key = .obj nested) :
    ∃ q, getCreator false false s target key
        = (.ok (.proxy q), (getCreator false false s target key).2) ∧
      (getCreator false false s target key).2.reactiveMap.lookup nested = some q := by
  unfold getCreator
  simp only [Bool.not_false, if_true, Bool.false_eq_true, if_false, hget, isObject_obj,
    Bool.and_self]
  exact asValue_reactive_obj _ nested

/-- In a state satisfying the invariant, the read of a field that holds a plain
object through `reactive(target)` returns the wrapper `reactive` gives for that
object. -/
theorem eval_get_reactive_obj (s : State) (target : Nat) (a : String) (nested : Nat)
    (hs : WF s) (hheap : reflectGet s target a = .obj nested) :
    ∃ q s1, evalExpr s (.get (.reactive (.obj target)) a) = (.ok (.proxy q), s1) ∧
      WF s1 ∧ SameButReads s s1 ∧
      reactive s1 (.obj nested) = (.ok q, s1) ∧
      s1.proxies[q]? = some { target := nested, handler := reactiveHandler } ∧
      s1.trace = s.trace ++ [.read s.currentReactiveEffect target a false] ∧
      s1.targetMap = (Track s target a).targetMap := by
  obtain ⟨p, h1, h2, h3, h4, h5, h6, h7, h8⟩ :=
    createReactiveObject_obj s target false reactiveHandler
  have hwA : WF (reactive s (.obj target)).2 :=
    WF_createReactiveObject _ _ false reactiveHandler (by simp) hs
  have hp := hwA.reactiveCache target p h2
  have he : evalExpr s (.reactive (.obj target))
      = (.ok (.proxy p), (reactive s (.obj target)).2) := by
    show asValue (reactive s (.obj target)) = _
    have : reactive s (.obj target) = (.ok p, (reactive s (.obj target)).2) := h1
    rw [this]
    rfl
  have hget : reflectGet (reactive s (.obj target)).2 target a = .obj nested := by
    have : (reactive s (.obj target)).2.heap = s.heap := h3
    simp only [reflectGet, this]
    exact hheap
  have hcur : (reactive s (.obj target)).2.currentReactiveEffect = s.currentReactiveEffect := h8
  have htr : (reactive s (.obj target)).2.trace = s.trace := h4
  have htm : (reactive s (.obj target)).2.targetMap = s.targetMap := h5
  have hfull : evalExpr s (.get (.reactive (.obj target)) a)
      = getCreator false false (reactive s (.obj target)).2 target a := by
    simp only [evalExpr] at he ⊢
    rw [he]
    simp only [hp, reactiveHandler]
  have hw1 : WF (evalExpr s (.get (.reactive (.obj target)) a)).2 := WF_evalExpr _ s hs
  have hsame := evalExpr_same (.get (.reactive (.obj target)) a) s
  obtain ⟨q, hres, hl⟩ := getCreator_obj (reactive s (.obj target)).2 target a nested hget
  rw [hfull] at hw1 hsame
  refine ⟨q, (getCreator false false (reactive s (.obj target)).2 target a).2, ?_, hw1, hsame,
    ?_, ?_, ?_, ?_⟩
  · rw [hfull]
    exact hres
  · exact createReactiveObject_hit _ nested false reactiveHandler q hl
  · exact hw1.reactiveCache nested q hl
  · rw [getCreator_trace, htr, hcur]
  · rw [getCreator_targetMap]
    unfold Track
    rw [hcur, htm]
    cases s.currentReactiveEffect <;> simp [htm]

/-- The `set` trap of a mutable wrapper on a field whose registered effects are all
quiet comes to an end, leaves effects and stack as they were, starts the computation
of each effect at most once, not at all for an effect on the stack, and, when no
error ends it, exactly once for a registered effect that has no scheduler and is not
on the stack. -/
theorem setCreator_quiet (s : State) (target : Nat) (key : String) (val : Val)
    (hq : ∀ x ∈ depOf s target key, Quiet s.effects s.reactivrEffectStack x) :
    ∃ N, ∀ n, N ≤ n → ∃ r s', setCreator false n s target key val = some (r, s') ∧
      s'.effects = s.effects ∧ s'.reactivrEffectStack = s.reactivrEffectStack ∧
      (∀ x, fnCount s' x ≤ fnCount s x + if x ∈ depOf s target key then 1 else 0) ∧
      (∀ x ∈ s.reactivrEffectStack, fnCount s' x = fnCount s x) ∧
      (r = .ok () → ∀ x eff, s.effects[x]? = some eff → eff.scheduler = none →
        x ∉ s.reactivrEffectStack → x ∈ depOf s target key →
        fnCount s' x = fnCount s x + 1) := by
  have hdep : ∀ t k, depOf (reflectSet s target key val) t k = depOf s t k :=
    fun t k => depOf_congr _ _ rfl t k
  have hcount : ∀ x, fnCount (reflectSet s target key val) x = fnCount s x := by
    intro x
    simp [fnCount, reflectSet, List.count_append]
  obtain ⟨N, hN⟩ := Trigger_quiet (reflectSet s target key val) target key
    (fun x hx => hq x (by rw [hdep] at hx; exact hx))
  refine ⟨N + 1, fun n hn => ?_⟩
  obtain ⟨m, rfl⟩ : ∃ m, n = m + 1 := ⟨n - 1, by omega⟩
  obtain ⟨r, s', g1, g2, g3, g4, g5, g6⟩ := hN m (by omega)
  refine ⟨r, s', ?_, g2, g3, fun x => ?_, fun x hx => ?_, fun hr x eff a1 a2 a3 a4 => ?_⟩
  · simp only [setCreator, Bool.false_eq_true, if_false]
    exact g1
  · have := g4 x
    rw [hdep, hcount] at this
    exact this
  · rw [g5 x hx, hcount]
  · have := g6 hr x eff a1 a2 a3 (by rw [hdep]; exact a4)
    rw [hcount] at this
    exact this

/-- The invariant holds in the example state with the nested read registered. -/
theorem WF_exampleNestedTracked : WF exampleNestedTracked := by
  refine ⟨rfl, ?_, ?_, ?_⟩
  · intro r p h
    by_cases hr : r = 0
    · subst hr
      simp [exampleNestedTracked, List.lookup] at h
      subst h
      rfl
    · have h2 : (r == 0) = false := by simpa using hr
      by_cases hr1 : r = 1
      · subst hr1
        simp [exampleNestedTracked, List.lookup] at h
        subst h
        rfl
      · have h3 : (r == 1) = false := by simpa using hr1
        simp [exampleNestedTracked, List.lookup, h2, h3] at h
  · intro r p h
    simp [exampleNestedTracked, List.lookup] at h
  · intro e t k
    by_cases ht : t = 0
    · subst ht
      by_cases hk : k = "n"
      · subst hk
        simp [exampleNestedTracked, depOf, List.lookup]
      · have h2 : (k == "n") = false := by simpa using hk
        simp [exampleNestedTracked, depOf, List.lookup, h2, hk]
    · have h2 : (t == 0) = false := by simpa using ht
      by_cases ht1 : t = 1
      · subst ht1
        by_cases hk : k = "x"
        · subst hk
          simp [exampleNestedTracked, depOf, List.lookup]
        · have h3 : (k == "x") = false := by simpa using hk
          simp [exampleNestedTracked, depOf, List.lookup, h3, hk]
      · have h3 : (t == 1) = false := by simpa using ht1
        simp [exampleNestedTracked, depOf, List.lookup, h2, h3, ht, ht1]

/-- The example state with the nested read registered is what the run of `effect`
reaches in a fresh module, field by field (the effect functions by their number). -/
theorem exampleNestedTracked_reached :
    observe (execBlock 20 (State.init exampleHeap)
        [.effect [.eval (.get (.get (.reactive (.obj 0)) "n") "x")] false none])
      = some (Observation.mk none exampleNestedTracked.trace exampleNestedTracked.targetMap
          exampleNestedTracked.heap) ∧
    internals (execBlock 20 (State.init exampleHeap)
        [.effect [.eval (.get (.get (.reactive (.obj 0)) "n") "x")] false none])
      = some exampleNestedTracked.internals := by
  decide!

/-! ## Reactivity: what no run of code undoes -/

/-- A wrapper cache never loses an entry in `createReactiveObject`. -/
theorem createReactiveObject_caches (s : State) (target : Val) (isReadOnly : Bool) (h : Handler) :
    (∀ t p, s.reactiveMap.lookup t = some p →
      (createReactiveObject s target isReadOnly h).2.reactiveMap.lookup t = some p) ∧
    (∀ t p, s.readOnlyMap.lookup t = some p →
      (createReactiveObject s target isReadOnly h).2.readOnlyMap.lookup t = some p) := by
  unfold createReactiveObject
  split
  · exact ⟨fun _ _ h => h, fun _ _ h => h⟩
  · split
    · split
      · exact ⟨fun _ _ h => h, fun _ _ h => h⟩
      · split
        · refine ⟨fun _ _ h => h, fun t p hl => ?_⟩
          show (s.readOnlyMap ++ _).lookup t = some p
          rw [lookup_append_single, hl]
        · refine ⟨fun t p hl => ?_, fun _ _ h => h⟩
          show (s.reactiveMap ++ _).lookup t = some p
          rw [lookup_append_single, hl]
    · exact ⟨fun _ _ h => h, fun _ _ h => h⟩

/-- A wrapper cache never loses an entry in a run of a `get` trap. -/
theorem getCreator_caches (isShallow isReadOnly : Bool) (s : State) (target : Nat)
    (key : String) :
    (∀ t p, s.reactiveMap.lookup t = some p →
      (getCreator isShallow isReadOnly s target key).2.reactiveMap.lookup t = some p) ∧
    (∀ t p, s.readOnlyMap.lookup t = some p →
      (getCreator isShallow isReadOnly s target key).2.readOnlyMap.lookup t = some p) := by
  have h1 : ∀ s1 : State, s1 = (if (!isReadOnly) = true then
      Track { s with trace := s.trace ++ [.read s.currentReactiveEffect target key isReadOnly] }
        target key
      else { s with trace := s.trace ++ [.read s.currentReactiveEffect target key isReadOnly] }) →
      s1.reactiveMap = s.reactiveMap ∧ s1.readOnlyMap = s.readOnlyMap := by
    intro s1 hs1
    rw [hs1]
    split
    · obtain ⟨_, _, _, _, f5, f6, _, _⟩ := Track_fields
        { s with trace := s.trace ++ [.read s.currentReactiveEffect target key isReadOnly] }
        target key
      exact ⟨f5, f6⟩
    · exact ⟨rfl, rfl⟩
  have h2 : ∀ (s1 : State) (tg : Val) (ro : Bool) (hd : Handler),
      s1.reactiveMap = s.reactiveMap ∧ s1.readOnlyMap = s.readOnlyMap →
      (∀ t p, s.reactiveMap.lookup t = some p →
        (createReactiveObject s1 tg ro hd).2.reactiveMap.lookup t = some p) ∧
      (∀ t p, s.readOnlyMap.lookup t = some p →
        (createReactiveObject s1 tg ro hd).2.readOnlyMap.lookup t = some p) := by
    intro s1 tg ro hd hs1
    have := createReactiveObject_caches s1 tg ro hd
    rw [hs1.1, hs1.2] at this
    exact this
  unfold getCreator
  simp only
  split
  · split
    · rw [asValue_snd]
      exact h2 _ _ _ _ (h1 _ rfl)
    · rw [asValue_snd]
      exact h2 _ _ _ _ (h1 _ rfl)
  · obtain ⟨a, b⟩ := h1 _ rfl
    exact ⟨fun t p hl => by rw [a]; exact hl, fun t p hl => by rw [b]; exact hl⟩

/-- A wrapper cache never loses an entry in the evaluation of an expression. -/
theorem evalExpr_caches (E : Expr) : ∀ s : State,
    (∀ t p, s.reactiveMap.lookup t = some p →
      (evalExpr s E).2.reactiveMap.lookup t = some p) ∧
    (∀ t p, s.readOnlyMap.lookup t = some p →
      (evalExpr s E).2.readOnlyMap.lookup t = some p) := by
  induction E with
  | lit v => intro s; exact ⟨fun _ _ h => h, fun _ _ h => h⟩
  | reactive tg =>
    intro s
    simp only [evalExpr, asValue_snd]
    exact createReactiveObject_caches _ _ _ _
  | readonly tg =>
    intro s
    simp only [evalExpr, asValue_snd]
    exact createReactiveObject_caches _ _ _ _
  | shallowReadonly tg =>
    intro s
    simp only [evalExpr, asValue_snd]
    exact createReactiveObject_caches _ _ _ _
  | get o key ih =>
    intro s
    have h1 := ih s
    simp only [evalExpr]
    cases he : evalExpr s o with
    | mk res s1 =>
      rw [he] at h1
      cases res with
      | error x => exact h1
      | ok v =>
        cases v with
        | proxy p =>
          simp only
          cases hp : s1.proxies[p]? with
          | none => exact h1
          | some px =>
            have h2 := getCreator_caches px.handler.isShallow px.handler.isReadOnly s1 px.target key
            exact ⟨fun t q hl => h2.1 t q (h1.1 t q hl), fun t q hl => h2.2 t q (h1.2 t q hl)⟩
        | raw w => cases w <;> exact h1

/-- No run of code removes an entry from a wrapper cache. -/
theorem exec_caches (n : Nat) (s : State) (cs : List Cmd) (r : Except Err Unit) (s' : State)
    (h : execBlock n s cs = some (r, s')) :
    (∀ t p, s.reactiveMap.lookup t = some p → s'.reactiveMap.lookup t = some p) ∧
    (∀ t p, s.readOnlyMap.lookup t = some p → s'.readOnlyMap.lookup t = some p) :=
  (exec_rel (fun a b =>
      (∀ t p, a.reactiveMap.lookup t = some p → b.reactiveMap.lookup t = some p) ∧
      (∀ t p, a.readOnlyMap.lookup t = some p → b.readOnlyMap.lookup t = some p))
    (fun _ => ⟨fun _ _ h => h, fun _ _ h => h⟩)
    (fun _ _ _ h1 h2 => ⟨fun t p hl => h2.1 t p (h1.1 t p hl), fun t p hl => h2.2 t p (h1.2 t p hl)⟩)
    (fun s e => evalExpr_caches e s)
    (fun _ _ _ _ => ⟨fun _ _ h => h, fun _ _ h => h⟩)
    (fun _ _ => ⟨fun _ _ h => h, fun _ _ h => h⟩)
    (fun _ _ _ => ⟨fun _ _ h => h, fun _ _ h => h⟩)
    (fun _ _ _ _ h12 => ⟨fun t p hl => h12.1 t p hl, fun t p hl => h12.2 t p hl⟩) n).1 s cs r s' h

/-- The dependency graph after a run of a `get` trap that was built read-only is the
one before. -/
theorem getCreator_targetMap_ro (isShallow : Bool) (s : State) (target : Nat) (key : String) :
    (getCreator isShallow true s target key).2.targetMap = s.targetMap := by
  unfold getCreator
  simp only [Bool.not_true, Bool.false_eq_true, if_false, if_true]
  split
  · simp only [asValue_snd, readonly, createReactiveObject_targetMap]
  · rfl

/-- The evaluation of an expression removes no registration. -/
theorem evalExpr_deps_mono (E : Expr) : ∀ (s : State) (x t : Nat) (k : String),
    x ∈ depOf s t k → x ∈ depOf (evalExpr s E).2 t k := by
  induction E with
  | lit v => intro s x t k h; exact h
  | reactive tg =>
    intro s x t k h
    simp only [evalExpr, asValue_snd, reactive]
    rw [depOf_congr _ s (createReactiveObject_targetMap _ _ _ _)]
    exact h
  | readonly tg =>
    intro s x t k h
    simp only [evalExpr, asValue_snd, readonly]
    rw [depOf_congr _ s (createReactiveObject_targetMap _ _ _ _)]
    exact h
  | shallowReadonly tg =>
    intro s x t k h
    simp only [evalExpr, asValue_snd, shallowReadonly]
    rw [depOf_congr _ s (createReactiveObject_targetMap _ _ _ _)]
    exact h
  | get o key ih =>
    intro s x t k h
    have h1 := ih s x t k h
    simp only [evalExpr]
    cases he : evalExpr s o with
    | mk res s1 =>
      rw [he] at h1
      cases res with
      | error err => exact h1
      | ok v =>
        cases v with
        | proxy p =>
          simp only
          cases hp : s1.proxies[p]? with
          | none => exact h1
          | some px =>
            simp only
            cases hro : px.handler.isReadOnly with
            | true =>
              rw [depOf_congr _ s1 (getCreator_targetMap_ro _ _ _ _)]
              exact h1
            | false =>
              rw [depOf_congr _ (Track s1 px.target key) (getCreator_targetMap _ _ _ _),
                depOf_Track]
              cases s1.currentReactiveEffect with
              | none => exact h1
              | some c =>
                simp only
                split
                · rename_i htk
                  rw [mem_setAdd]
                  left
                  rw [← htk.1, ← htk.2]
                  exact h1
                · exact h1
        | raw w => cases w <;> exact h1

/-- No run of code removes a registration from the dependency graph. -/
theorem exec_deps_mono (n : Nat) (s : State) (cs : List Cmd) (r : Except Err Unit) (s' : State)
    (h : execBlock n s cs = some (r, s')) (x t : Nat) (k : String)
    (hx : x ∈ depOf s t k) : x ∈ depOf s' t k :=
  (exec_rel (fun a b => ∀ x t k, x ∈ depOf a t k → x ∈ depOf b t k)
    (fun _ _ _ _ h => h) (fun _ _ _ h1 h2 x t k h => h2 x t k (h1 x t k h))
    (fun s e x t k h => evalExpr_deps_mono e s x t k h)
    (fun _ _ _ _ _ _ _ h => h) (fun _ _ _ _ _ h => h) (fun _ _ _ _ _ _ h => h)
    (fun _ _ _ _ h12 x t k h => h12 x t k h) n).1 s cs r s' h x t k hx

/-- A run of code leaves the effect stack as it found it and starts no computation
of an effect that is on the stack. -/
theorem exec_guard (n : Nat) :
    (∀ s cs r s', execBlock n s cs = some (r, s') →
      s'.reactivrEffectStack = s.reactivrEffectStack ∧
      ∀ x ∈ s.reactivrEffectStack, fnCount s' x = fnCount s x) := by
  have h := exec_rel (fun a b => b.reactivrEffectStack = a.reactivrEffectStack ∧
      ∀ x ∈ a.reactivrEffectStack, fnCount b x = fnCount a x)
    (fun _ => ⟨rfl, fun _ _ => rfl⟩)
    (fun a b c h1 h2 => ⟨h2.1.trans h1.1, fun x hx =>
      (h2.2 x (by rw [h1.1]; exact hx)).trans (h1.2 x hx)⟩)
    (fun s e => ⟨(evalExpr_same e s).2.2.1, fun x _ => (evalExpr_same e s).2.2.2.2 x⟩)
    (fun s t k v => ⟨rfl, fun x _ => by simp [fnCount, reflectSet, List.count_append]⟩)
    (fun s e => ⟨rfl, fun x _ => fnCount_enterScheduler s e x⟩)
    (fun _ _ _ => ⟨rfl, fun _ _ => rfl⟩)
    (fun s e s2 hc h12 => by
      have hne : e ∉ s.reactivrEffectStack := by simpa using hc
      refine ⟨?_, fun x hx => ?_⟩
      · show s2.reactivrEffectStack.dropLast = s.reactivrEffectStack
        rw [h12.1]
        simp [enterEffect]
      · rw [fnCount_leaveEffect, h12.2 x (by simp [enterEffect, hx]), fnCount_enterEffect]
        have : x ≠ e := fun hxe => hne (hxe ▸ hx)
        simp [this]) n
  exact h.1

/-- Whenever a call of an effect that is not on the stack returns, its computation
was started exactly once meanwhile, whatever the computation does, and the stack is
as before. -/
theorem reactiveEffect_once (n : Nat) (s : State) (e : Nat) (r : Except Err Unit) (s' : State)
    (hstack : e ∉ s.reactivrEffectStack) (h : reactiveEffect n s e = some (r, s')) :
    fnCount s' e = fnCount s e + 1 ∧ s'.reactivrEffectStack = s.reactivrEffectStack := by
  cases n with
  | zero => simp [reactiveEffect] at h
  | succ m =>
    have hc : s.reactivrEffectStack.contains e = false := by simpa using hstack
    simp only [reactiveEffect, hc, Bool.false_eq_true, if_false] at h
    cases hf : s.effects[e]? with
    | none => simp [hf] at h
    | some eff =>
      simp only [hf] at h
      cases hx : execBlock m (enterEffect s e) eff.fn with
      | none => simp [hx] at h
      | some res =>
        obtain ⟨r1, s2⟩ := res
        simp only [hx, Option.some.injEq, Prod.mk.injEq] at h
        obtain ⟨g1, g2⟩ := exec_guard m _ _ _ _ hx
        rw [← h.2]
        constructor
        · rw [fnCount_leaveEffect, g2 e (by simp [enterEffect]), fnCount_enterEffect]
          simp
        · show s2.reactivrEffectStack.dropLast = s.reactivrEffectStack
          rw [g1]
          simp [enterEffect]

/-! ## Reactivity: a scheduler that writes the field it is registered under -/

/-- When the first effect notified by a write to a field has a scheduler that writes
that field again through `reactive`, the notification never returns: the scheduler's
write notifies the same effects, in the same order, and no guard stands between
them. -/
theorem Trigger_scheduler_first (t : Nat) (k : String) (v : Val) (e p : Nat) (fn : List Cmd)
    (dm : List (String × List Nat)) (dep rest : List Nat) :
    ∀ (n : Nat) (s : State),
      s.effects[e]? = some (ReactiveEffect.mk fn (some [.assign (.reactive (.obj t)) k v])) →
      s.reactiveMap.lookup t = some p →
      s.proxies[p]? = some (ProxyObj.mk t reactiveHandler) →
      s.targetMap.lookup t = some dm → dm.lookup k = some dep →
      dep.foldl setAdd [] = e :: rest →
      Trigger n s t k = none := by
  intro n
  induction n using Nat.strong_induction_on with
  | _ n ih =>
    intro s he hm hp ht hd hf
    rcases n with _ | n
    · simp only [Trigger]
    simp only [Trigger, ht, hd, hf]
    rcases n with _ | n
    · simp only [triggerEach]
    simp only [triggerEach, he]
    rcases n with _ | n
    · simp only [execBlock]
    simp only [execBlock]
    rcases n with _ | n
    · simp only [execCmd]
    have hev : evalExpr (enterScheduler s e) (.reactive (.obj t))
        = (.ok (.proxy p), enterScheduler s e) := by
      simp only [evalExpr, reactive]
      rw [createReactiveObject_hit (enterScheduler s e) t false reactiveHandler p hm]
      rfl
    have hp2 : (enterScheduler s e).proxies[p]? = some (ProxyObj.mk t reactiveHandler) := hp
    simp only [execCmd, hev, hp2, reactiveHandler]
    rcases n with _ | n
    · simp only [setCreator]
    simp only [setCreator, Bool.false_eq_true, if_false]
    rw [ih n (by omega) (reflectSet (enterScheduler s e) t k v) he hm hp ht hd hf]

/-! # The claims -/

/-- C1 (as stated, refuted): an effect with a scheduler reads field `a` of object 0
while it runs; a later write to `a` through `reactive` calls the scheduler and does
not start the computation again.  And when an effect registered earlier under the
same field throws on its re-run, the computation of effect 1, registered after it,
is not started again either. -/
theorem write_does_not_rerun_computation :
    observe (execBlock 20 (State.init exampleHeap)
        [.effect [.eval (.get (.reactive (.obj 0)) "a")] false (some []),
         .assign (.reactive (.obj 0)) "a" (.num 5)])
      = some (Observation.mk none
          [.fn 0, .read (some 0) 0 "a" false, .write 0 "a" (.num 5), .scheduler 0]
          [(0, [("a", [0])])]
          [(0, [("a", .num 5), ("b", .num 2), ("n", .obj 1)]), (1, [("x", .num 7)])]) ∧
    observe (execBlock 20 (State.init exampleHeap)
        [.effect [.ite (.get (.reactive (.obj 0)) "a") [] [.throw 0]] false none,
         .effect [.eval (.get (.reactive (.obj 0)) "a")] false none,
         .assign (.reactive (.obj 0)) "a" (.num 0)])
      = some (Observation.mk (some (Err.user 0))
          [.fn 0, .read (some 0) 0 "a" false, .fn 1, .read (some 1) 0 "a" false,
            .write 0 "a" (.num 0), .fn 0, .read (some 0) 0 "a" false]
          [(0, [("a", [0, 1])])]
          [(0, [("a", .num 0), ("b", .num 2), ("n", .obj 1)]), (1, [("x", .num 7)])]) := by
  decide!

/-- C1 (amended): in a state satisfying the invariant, let effect `e` have no
scheduler, not be running, and have read field `key` of the plain object `target`
through a mutable wrapper while it was active, and let every effect registered under
that field (so `e` too) perform no writes.  Then a write to the field through
`reactive(target)` comes to an end, starts the computation of `e` at most once, and
exactly once when no error ends the write. -/
theorem write_reruns_once (s : State) (target : Nat) (key : String) (val : Val) (e : Nat)
    (eff : ReactiveEffect) (hs : WF s) (heff : s.effects[e]? = some eff)
    (hns : eff.scheduler = none) (hstack : e ∉ s.reactivrEffectStack)
    (hread : Event.read (some e) target key false ∈ s.trace)
    (hobs : ∀ x ∈ depOf s target key, Observer s.effects x) :
    ∃ N, ∀ n, N ≤ n → ∃ r s',
      execCmd n s (.assign (.reactive (.obj target)) key val) = some (r, s') ∧
      fnCount s' e ≤ fnCount s e + 1 ∧ (r = .ok () → fnCount s' e = fnCount s e + 1) := by
  have hreg : e ∈ depOf s target key := (hs.log e target key).mpr hread
  obtain ⟨N, hN⟩ := write_quiet s target key val hs (fun x hx => Or.inl (hobs x hx))
  refine ⟨N, fun n hn => ?_⟩
  obtain ⟨r, s', g1, _, _, g4, _, g6⟩ := hN n hn
  refine ⟨r, s', g1, ?_, fun hr => g6 hr e eff heff hns hstack hreg⟩
  have := g4 e
  rw [if_pos hreg] at this
  exact this

/-- The write to field `a` of object 0 in the example state with one registered
effect. -/
theorem write_reruns_once_witness :
    WF exampleTracked ∧
    ∃ N, ∀ n, N ≤ n → ∃ r s',
      execCmd n exampleTracked (.assign (.reactive (.obj 0)) "a" (.num 5)) = some (r, s') ∧
      fnCount s' 0 ≤ fnCount exampleTracked 0 + 1 ∧
      (r = .ok () → fnCount s' 0 = fnCount exampleTracked 0 + 1) :=
  ⟨WF_exampleTracked,
   write_reruns_once exampleTracked 0 "a" (.num 5) 0
    (ReactiveEffect.mk [.eval (.get (.reactive (.obj 0)) "a")] none) WF_exampleTracked rfl rfl
    (by decide) (by decide)
    (by
      intro x hx
      have hx0 : x = 0 := by simpa [exampleTracked, depOf, List.lookup] using hx
      subst hx0
      exact ⟨_, rfl, NoWrites.eval _ NoWrites.nil, fun sc h => Option.noConfusion h⟩)⟩

/-- C2 (code at the failing input): an effect reads field `a` of object 0, so it is
registered under `a` and nothing is registered under `b`.  A write to `b` through
`reactive` then ends in a `TypeError` raised by `Trigger`, after the field was
written; the same happens when `Trigger` is called on `(0, b)` directly. -/
theorem Trigger_unregistered_key_throws :
    observe (execBlock 20 (State.init exampleHeap)
        [.effect [.eval (.get (.reactive (.obj 0)) "a")] false none,
         .assign (.reactive (.obj 0)) "b" (.num 5)])
      = some (Observation.mk (some Err.typeError)
          [.fn 0, .read (some 0) 0 "a" false, .write 0 "b" (.num 5)]
          [(0, [("a", [0])])]
          [(0, [("a", .num 1), ("b", .num 5), ("n", .obj 1)]), (1, [("x", .num 7)])]) ∧
    observe ((execBlock 20 (State.init exampleHeap)
        [.effect [.eval (.get (.reactive (.obj 0)) "a")] false none]).bind
        (fun r => Trigger 3 r.2 0 "b"))
      = some (Observation.mk (some Err.typeError)
          [.fn 0, .read (some 0) 0 "a" false]
          [(0, [("a", [0])])] exampleHeap) := by
  decide!

/-- C3 (as stated, refuted): in a fresh module `effect` runs effect 0, which reads
field `a` of object 0 and has a scheduler that writes the field, and effect 1 is
created, whose computation reads field `a` through `reactive` and then writes it.
The outermost call of effect 1 in the state reached never returns, whatever the
fuel: its write notifies effect 0 first, whose scheduler writes the field, which
notifies effect 0 again, and so on without end. -/
theorem self_trigger_never_returns :
    execBlock 20 (State.init exampleHeap)
        [.effect [.eval (.get (.reactive (.obj 0)) "a")] false
            (some [.assign (.reactive (.obj 0)) "a" (.num 5)]),
         .effect [.eval (.get (.reactive (.obj 0)) "a"),
            .assign (.reactive (.obj 0)) "a" (.num 9)] true none]
      = some (.ok (), exampleLoop) ∧
    ∀ n, reactiveEffect n exampleLoop 1 = none := by
  refine ⟨rfl, fun n => ?_⟩
  have hc : exampleLoop.reactivrEffectStack.contains 1 = false := rfl
  have heff : exampleLoop.effects[1]? = some (ReactiveEffect.mk
      [.eval (.get (.reactive (.obj 0)) "a"), .assign (.reactive (.obj 0)) "a" (.num 9)]
      none) := rfl
  obtain ⟨X, hev, h1, h2, h3, h4⟩ : ∃ X : State,
      evalExpr (enterEffect exampleLoop 1) (.get (.reactive (.obj 0)) "a")
        = (.ok (.raw (.num 1)), X) ∧
      X.effects[0]? = some (ReactiveEffect.mk [.eval (.get (.reactive (.obj 0)) "a")]
        (some [.assign (.reactive (.obj 0)) "a" (.num 5)])) ∧
      X.reactiveMap.lookup 0 = some 0 ∧
      X.proxies[0]? = some (ProxyObj.mk 0 reactiveHandler) ∧
      X.targetMap.lookup 0 = some [("a", [0, 1])] := ⟨_, rfl, rfl, rfl, rfl, rfl⟩
  have hev2 : evalExpr X (.reactive (.obj 0)) = (.ok (.proxy 0), X) := by
    simp only [evalExpr, reactive]
    rw [createReactiveObject_hit X 0 false reactiveHandler 0 h2]
    rfl
  rcases n with _ | n
  · simp only [reactiveEffect]
  simp only [reactiveEffect, hc, Bool.false_eq_true, if_false, heff]
  rcases n with _ | n
  · simp only [execBlock]
  simp only [execBlock]
  rcases n with _ | n
  · simp only [execCmd]
  simp only [execCmd, hev]
  simp only [execBlock]
  rcases n with _ | n
  · simp only [execCmd]
  simp only [execCmd, hev2, h3, reactiveHandler]
  rcases n with _ | n
  · simp only [setCreator]
  simp only [setCreator, Bool.false_eq_true, if_false]
  rw [Trigger_scheduler_first 0 "a" (.num 5) 0 0 [.eval (.get (.reactive (.obj 0)) "a")]
    [("a", [0, 1])] [0, 1] [1] n (reflectSet X 0 "a" (.num 9)) h1 h2 h3 h4 rfl rfl]

/-- C3 (amended): in a state satisfying the invariant, let effect `e` have no
scheduler, not be on the effect stack, and have the computation "read field `key`
of `target` through `reactive`, then write `val` to it through `reactive`", and let
every other effect registered under that field perform no writes, neither in its
computation nor in its scheduler.  Then a call of `e` comes to an end, starts the
computation exactly once, and leaves the stack and the current effect as they
were; a call of an effect that is on the stack does nothing; and in any state,
whatever else is registered, a call of `e` that returns has started the computation
exactly once. -/
theorem self_trigger_runs_once (s : State) (target : Nat) (key : String) (val : Val) (e : Nat)
    (hs : WF s)
    (heff : s.effects[e]? = some (ReactiveEffect.mk
      [.eval (.get (.reactive (.obj target)) key), .assign (.reactive (.obj target)) key val]
      none))
    (hstack : e ∉ s.reactivrEffectStack)
    (hobs : ∀ x ∈ depOf s target key, x ≠ e → Observer s.effects x) :
    (∃ N, ∀ n, N ≤ n → ∃ r s', reactiveEffect n s e = some (r, s') ∧
      fnCount s' e = fnCount s e + 1 ∧
      s'.reactivrEffectStack = s.reactivrEffectStack ∧
      s'.currentReactiveEffect = s.currentReactiveEffect) ∧
    (∀ n (s2 : State), e ∈ s2.reactivrEffectStack →
      reactiveEffect (n + 1) s2 e = some (.ok (), s2)) ∧
    (∀ n (s2 : State) r s', e ∉ s2.reactivrEffectStack → reactiveEffect n s2 e = some (r, s') →
      fnCount s' e = fnCount s2 e + 1 ∧ s'.reactivrEffectStack = s2.reactivrEffectStack) := by
  refine ⟨?_, ?_, fun n s2 r s' h1 h2 => reactiveEffect_once n s2 e r s' h1 h2⟩
  · have hc : s.reactivrEffectStack.contains e = false := by simpa using hstack
    have hwa : WF (enterEffect s e) := WF_enterEffect s e hs
    -- the state after the read
    have hsame := evalExpr_same (.get (.reactive (.obj target)) key) (enterEffect s e)
    have hwb : WF (evalExpr (enterEffect s e) (.get (.reactive (.obj target)) key)).2 :=
      WF_evalExpr _ _ hwa
    have heffb : (evalExpr (enterEffect s e) (.get (.reactive (.obj target)) key)).2.effects
        = s.effects := hsame.2.1
    have hstb : (evalExpr (enterEffect s e)
        (.get (.reactive (.obj target)) key)).2.reactivrEffectStack
        = s.reactivrEffectStack ++ [e] := hsame.2.2.1
    have hq : ∀ x ∈ depOf (evalExpr (enterEffect s e) (.get (.reactive (.obj target)) key)).2
        target key,
        Quiet (evalExpr (enterEffect s e) (.get (.reactive (.obj target)) key)).2.effects
          (evalExpr (enterEffect s e)
            (.get (.reactive (.obj target)) key)).2.reactivrEffectStack x := by
      intro x hx
      rw [heffb, hstb]
      have hxe : x = e → Quiet s.effects (s.reactivrEffectStack ++ [e]) x := by
        intro h
        subst h
        exact Or.inr ⟨_, heff, rfl, by simp⟩
      rcases evalExpr_deps _ _ _ _ _ hx with h1 | h1
      · by_cases hxe2 : x = e
        · exact hxe hxe2
        · exact Or.inl (hobs x h1 hxe2)
      · have : x = e := by
          have h2 : (enterEffect s e).currentReactiveEffect = some e := rfl
          rw [h2] at h1
          exact (Option.some.inj h1).symm
        exact hxe this
    obtain ⟨N, hN⟩ := write_quiet _ target key val hwb hq
    refine ⟨N + 4, fun n hn => ?_⟩
    obtain ⟨m, rfl⟩ : ∃ m, n = m + 4 := ⟨n - 4, by omega⟩
    have hbody : ∃ r s2, execBlock (m + 3) (enterEffect s e)
        [.eval (.get (.reactive (.obj target)) key), .assign (.reactive (.obj target)) key val]
          = some (r, s2) ∧
        s2.reactivrEffectStack = s.reactivrEffectStack ++ [e] ∧
        fnCount s2 e = fnCount s e + 1 := by
      have hcnt : fnCount (evalExpr (enterEffect s e) (.get (.reactive (.obj target)) key)).2 e
          = fnCount s e + 1 := by
        rw [hsame.2.2.2.2 e, fnCount_enterEffect]
        simp
      have h1 : execCmd (m + 2) (enterEffect s e) (.eval (.get (.reactive (.obj target)) key))
          = some ((match (evalExpr (enterEffect s e) (.get (.reactive (.obj target)) key)).1 with
              | .ok _ => .ok ()
              | .error x => .error x),
            (evalExpr (enterEffect s e) (.get (.reactive (.obj target)) key)).2) := by
        simp only [execCmd]
        cases evalExpr (enterEffect s e) (.get (.reactive (.obj target)) key) with
        | mk res sb => cases res <;> rfl
      obtain ⟨r, s', g1, g2, g3, g4, g5, g6⟩ := hN (m + 1) (by omega)
      have hcnt2 : fnCount s' e = fnCount s e + 1 := by
        rw [g5 e (by rw [hstb]; simp), hcnt]
      rw [execBlock, h1]
      cases (evalExpr (enterEffect s e) (.get (.reactive (.obj target)) key)).1 with
      | error err => exact ⟨_, _, rfl, hstb, hcnt⟩
      | ok v =>
        simp only
        rw [execBlock, g1]
        cases r with
        | error err => exact ⟨_, _, rfl, g3.trans hstb, hcnt2⟩
        | ok u => exact ⟨_, _, rfl, g3.trans hstb, hcnt2⟩
    obtain ⟨r, s2, b1, b2, b3⟩ := hbody
    refine ⟨r, leaveEffect s2, ?_, ?_, ?_, ?_⟩
    · simp only [reactiveEffect, hc, Bool.false_eq_true, if_false, heff, b1]
    · rw [fnCount_leaveEffect, b3]
    · simp [leaveEffect, b2]
    · simp [leaveEffect, b2, hs.current]
  · intro n s2 hmem
    have hc : s2.reactivrEffectStack.contains e = true := by simpa using hmem
    simp only [reactiveEffect, hc, if_true]

/-- The call of the self-triggering effect 1 in the example state where effect 0,
which only reads, is registered under the same field. -/
theorem self_trigger_runs_once_witness :
    WF exampleSelfObserved ∧ depOf exampleSelfObserved 0 "a" = [0] ∧
    ∃ N, ∀ n, N ≤ n → ∃ r s', reactiveEffect n exampleSelfObserved 1 = some (r, s') ∧
      fnCount s' 1 = fnCount exampleSelfObserved 1 + 1 ∧
      s'.reactivrEffectStack = exampleSelfObserved.reactivrEffectStack ∧
      s'.currentReactiveEffect = exampleSelfObserved.currentReactiveEffect :=
  ⟨⟨WF_exampleTracked.current, WF_exampleTracked.reactiveCache,
      WF_exampleTracked.readOnlyCache, WF_exampleTracked.log⟩,
   rfl,
   (self_trigger_runs_once exampleSelfObserved 0 "a" (.num 9) 1
      ⟨WF_exampleTracked.current, WF_exampleTracked.reactiveCache,
        WF_exampleTracked.readOnlyCache, WF_exampleTracked.log⟩
      rfl (by decide)
      (by
        intro x hx _
        have hx0 : x = 0 := by
          simpa [exampleSelfObserved, createReactiveEffect, exampleTracked, depOf,
            List.lookup] using hx
        subst hx0
        exact ⟨_, rfl, NoWrites.eval _ NoWrites.nil, fun sc h => Option.noConfusion h⟩)).1⟩

/-- The self-triggering example effect, created and run by `effect` and then
called once more: each of the two outermost calls starts the computation once. -/
theorem exampleSelf_trace :
    observe (execBlock 20 (State.init exampleHeap)
        [.effect [.eval (.get (.reactive (.obj 0)) "a"),
            .assign (.reactive (.obj 0)) "a" (.num 9)] false none,
         .call 0])
      = some (Observation.mk none
          [.fn 0, .read (some 0) 0 "a" false, .write 0 "a" (.num 9),
            .fn 0, .read (some 0) 0 "a" false, .write 0 "a" (.num 9)]
          [(0, [("a", [0])])]
          [(0, [("a", .num 9), ("b", .num 2), ("n", .obj 1)]), (1, [("x", .num 7)])]) := by
  decide!

/-- C4: in a state satisfying the invariant, for an effect that is not on the effect
stack and whatever its computation `fn` is: when `fn`, run with the effect pushed
and current, completes normally or throws, the call of the effect completes the same
way (a thrown error reaches the caller) and leaves the effect stack and
`currentReactiveEffect` exactly as they were before the call. -/
theorem effect_call_restores_stack (n : Nat) (s : State) (e : Nat) (eff : ReactiveEffect)
    (r : Except Err Unit) (s2 : State) (hs : WF s)
    (hstack : s.reactivrEffectStack.contains e = false) (heff : s.effects[e]? = some eff)
    (hfn : execBlock n (enterEffect s e) eff.fn = some (r, s2)) :
    ∃ s', reactiveEffect (n + 1) s e = some (r, s') ∧
      s'.reactivrEffectStack = s.reactivrEffectStack ∧
      s'.currentReactiveEffect = s.currentReactiveEffect := by
  have h2 : s2.reactivrEffectStack = s.reactivrEffectStack ++ [e] :=
    (exec_stack n).1 _ _ _ _ hfn
  refine ⟨leaveEffect s2, ?_, ?_, ?_⟩
  · simp only [reactiveEffect, hstack, Bool.false_eq_true, if_false, heff, hfn]
  · simp [leaveEffect, h2]
  · simp [leaveEffect, h2, hs.current]

/-- The call of the throwing example effect: the error reaches the caller, the
stack is empty and no effect is current afterwards, as before the call. -/
theorem effect_call_restores_stack_witness :
    WF exampleThrowing ∧
    ∃ s', reactiveEffect 6 exampleThrowing 0 = some (.error (Err.user 3), s') ∧
      s'.reactivrEffectStack = exampleThrowing.reactivrEffectStack ∧
      s'.currentReactiveEffect = exampleThrowing.currentReactiveEffect := by
  have hw : WF exampleThrowing :=
    ⟨(WF_init exampleHeap).current, (WF_init exampleHeap).reactiveCache,
      (WF_init exampleHeap).readOnlyCache, (WF_init exampleHeap).log⟩
  have h1 : (execBlock 5 (enterEffect exampleThrowing 0)
      [.eval (.get (.reactive (.obj 0)) "a"), .throw 3]).map (fun x => errorOf x.1)
        = some (some (Err.user 3)) := by decide!
  refine ⟨hw, ?_⟩
  cases hx : execBlock 5 (enterEffect exampleThrowing 0)
      [.eval (.get (.reactive (.obj 0)) "a"), .throw 3] with
  | none =>
    rw [hx] at h1
    exact Option.noConfusion h1
  | some res =>
    obtain ⟨r, s2⟩ := res
    rw [hx] at h1
    have hr : r = .error (Err.user 3) := by
      cases r with
      | ok u => simp [errorOf] at h1
      | error x => simpa [errorOf] using h1
    subst hr
    exact effect_call_restores_stack 5 exampleThrowing 0
      { fn := [.eval (.get (.reactive (.obj 0)) "a"), .throw 3], scheduler := none } _ s2 hw
      (by decide) rfl hx

/-- C5: on a plain object each of `reactive`, `readonly` and `shallowReadonly`
returns a wrapper, a second call returns the same wrapper and changes nothing, and
in a state satisfying the invariant the wrapper of `reactive` differs from the one
`readonly` returns, whichever is called first.  Whatever code runs after a call of a
variant (`createReactiveObject` with its cache and handler), the same call then
still returns the same wrapper and changes nothing. -/
theorem wrapper_identity_stable (s : State) (r : Nat) (hs : WF s) :
    (∃ p, reactive s (.obj r) = (.ok p, (reactive s (.obj r)).2) ∧
      reactive (reactive s (.obj r)).2 (.obj r) = (.ok p, (reactive s (.obj r)).2)) ∧
    (∃ p, readonly s (.obj r) = (.ok p, (readonly s (.obj r)).2) ∧
      readonly (readonly s (.obj r)).2 (.obj r) = (.ok p, (readonly s (.obj r)).2)) ∧
    (∃ p, shallowReadonly s (.obj r) = (.ok p, (shallowReadonly s (.obj r)).2) ∧
      shallowReadonly (shallowReadonly s (.obj r)).2 (.obj r)
        = (.ok p, (shallowReadonly s (.obj r)).2)) ∧
    (∀ p q, (reactive s (.obj r)).1 = .ok p →
      (readonly (reactive s (.obj r)).2 (.obj r)).1 = .ok q → p ≠ q) ∧
    (∀ p q, (readonly s (.obj r)).1 = .ok q →
      (reactive (readonly s (.obj r)).2 (.obj r)).1 = .ok p → p ≠ q) ∧
    (∀ (isReadOnly : Bool) (h : Handler) p n prog res s',
      (createReactiveObject s (.obj r) isReadOnly h).1 = .ok p →
      execBlock n (createReactiveObject s (.obj r) isReadOnly h).2 prog = some (res, s') →
      createReactiveObject s' (.obj r) isReadOnly h = (.ok p, s')) := by
  have again : ∀ (st : State) (ro : Bool) (h : Handler),
      ∃ p, createReactiveObject st (.obj r) ro h
          = (.ok p, (createReactiveObject st (.obj r) ro h).2) ∧
        createReactiveObject (createReactiveObject st (.obj r) ro h).2 (.obj r) ro h
          = (.ok p, (createReactiveObject st (.obj r) ro h).2) := by
    intro st ro h
    obtain ⟨p, h1, h2, _⟩ := createReactiveObject_obj st r ro h
    exact ⟨p, h1, createReactiveObject_hit _ r ro h p h2⟩
  -- the wrapper of `reactive` and the wrapper of `readonly` in one state differ
  have differ : ∀ st : State, WF st → ∀ p q, st.reactiveMap.lookup r = some p →
      st.readOnlyMap.lookup r = some q → p ≠ q := by
    intro st hst p q hp hq hpq
    subst hpq
    have h1 := hst.reactiveCache r p hp
    obtain ⟨h, h2, _, h3⟩ := hst.readOnlyCache r p hq
    rw [h1] at h2
    simp only [Option.some.injEq, ProxyObj.mk.injEq, true_and] at h2
    rw [← h2] at h3
    simp [reactiveHandler] at h3
  have later : ∀ (isReadOnly : Bool) (h : Handler) p n prog res s',
      (createReactiveObject s (.obj r) isReadOnly h).1 = .ok p →
      execBlock n (createReactiveObject s (.obj r) isReadOnly h).2 prog = some (res, s') →
      createReactiveObject s' (.obj r) isReadOnly h = (.ok p, s') := by
    intro ro h p n prog res s' hp hrun
    obtain ⟨p1, h1, h2, _⟩ := createReactiveObject_obj s r ro h
    have hp1 : p1 = p := by
      rw [h1] at hp
      exact Except.ok.inj hp
    subst hp1
    obtain ⟨c1, c2⟩ := exec_caches n _ prog res s' hrun
    apply createReactiveObject_hit
    cases ro with
    | true => exact c2 r p1 h2
    | false => exact c1 r p1 h2
  refine ⟨again s false reactiveHandler, again s true readOnlyHandler,
    again s true shallowReadOnlyHandler, ?_, ?_, later⟩
  · intro p q hp hq
    obtain ⟨p1, h1, h2, _⟩ := createReactiveObject_obj s r false reactiveHandler
    have hw1 : WF (reactive s (.obj r)).2 :=
      WF_createReactiveObject _ _ false reactiveHandler (by simp) hs
    obtain ⟨q1, h3, h4, _⟩ := createReactiveObject_obj (reactive s (.obj r)).2 r true readOnlyHandler
    have hw2 : WF (readonly (reactive s (.obj r)).2 (.obj r)).2 :=
      WF_createReactiveObject _ _ true readOnlyHandler (by simp [readOnlyHandler]) hw1
    have hp1 : p1 = p := by
      have : (reactive s (.obj r)).1 = .ok p1 := by
        show (createReactiveObject s (.obj r) false reactiveHandler).1 = _
        rw [h1]
      rw [this] at hp
      exact Except.ok.inj hp
    have hq1 : q1 = q := by
      have : (readonly (reactive s (.obj r)).2 (.obj r)).1 = .ok q1 := by
        show (createReactiveObject _ (.obj r) true readOnlyHandler).1 = _
        rw [h3]
      rw [this] at hq
      exact Except.ok.inj hq
    subst hp1 hq1
    refine differ _ hw2 p1 q1 ?_ h4
    -- the `reactive` cache is untouched by `readonly`
    have hsame : (readonly (reactive s (.obj r)).2 (.obj r)).2.reactiveMap
        = (reactive s (.obj r)).2.reactiveMap := by
      unfold readonly createReactiveObject
      simp only [isObject_obj, bne_self_eq_false, Bool.false_eq_true, if_false, if_true]
      split <;> rfl
    rw [hsame]
    exact h2
  · intro p q hq hp
    obtain ⟨q1, h1, h2, _⟩ := createReactiveObject_obj s r true readOnlyHandler
    have hw1 : WF (readonly s (.obj r)).2 :=
      WF_createReactiveObject _ _ true readOnlyHandler (by simp [readOnlyHandler]) hs
    obtain ⟨p1, h3, h4, _⟩ := createReactiveObject_obj (readonly s (.obj r)).2 r false reactiveHandler
    have hw2 : WF (reactive (readonly s (.obj r)).2 (.obj r)).2 :=
      WF_createReactiveObject _ _ false reactiveHandler (by simp) hw1
    have hq1 : q1 = q := by
      have : (readonly s (.obj r)).1 = .ok q1 := by
        show (createReactiveObject s (.obj r) true readOnlyHandler).1 = _
        rw [h1]
      rw [this] at hq
      exact Except.ok.inj hq
    have hp1 : p1 = p := by
      have : (reactive (readonly s (.obj r)).2 (.obj r)).1 = .ok p1 := by
        show (createReactiveObject _ (.obj r) false reactiveHandler).1 = _
        rw [h3]
      rw [this] at hp
      exact Except.ok.inj hp
    subst hp1 hq1
    refine differ _ hw2 p1 q1 h4 ?_
    have hsame : (reactive (readonly s (.obj r)).2 (.obj r)).2.readOnlyMap
        = (readonly s (.obj r)).2.readOnlyMap := by
      unfold reactive createReactiveObject
      simp only [isObject_obj, bne_self_eq_false, Bool.false_eq_true, if_false]
      split <;> rfl
    rw [hsame]
    exact h2

/-- The identity statement at object 0 of the example heap in a fresh module. -/
theorem wrapper_identity_stable_witness :
    WF (State.init exampleHeap) ∧
    (∀ p q, (reactive (State.init exampleHeap) (.obj 0)).1 = .ok p →
      (readonly (reactive (State.init exampleHeap) (.obj 0)).2 (.obj 0)).1 = .ok q → p ≠ q) :=
  ⟨WF_init exampleHeap,
   (wrapper_identity_stable (State.init exampleHeap) 0 (WF_init exampleHeap)).2.2.2.1⟩

/-- C6 (code at the failing input): object 0 holds the plain object 1 in field `n`.
In a fresh module `shallowReadonly(0).n` is the raw object 1; after a call of
`readonly(0)` the same read returns a wrapper, a `Proxy` over object 1 with the
deep read-only handler. -/
theorem shallowReadonly_after_readonly_wraps :
    (evalExpr (State.init exampleHeap) (.get (.shallowReadonly (.obj 0)) "n")).1.toOption
      = some (.raw (.obj 1)) ∧
    (evalExpr (readonly (State.init exampleHeap) (.obj 0)).2
      (.get (.shallowReadonly (.obj 0)) "n")).1.toOption = some (.proxy 1) ∧
    (evalExpr (readonly (State.init exampleHeap) (.obj 0)).2
      (.get (.shallowReadonly (.obj 0)) "n")).2.proxies[1]?
        = some { target := 1, handler := readOnlyHandler } := by
  decide!

/-- C7: in a state satisfying the invariant, a write of any value to any key through
`readonly(T)` or `shallowReadonly(T)` for a plain object `T` ends with the
read-only error; the state reached has the heap, the trace (so no computation and
no scheduler was started) and the dependency graph of the state before. -/
theorem readonly_write_fails (n : Nat) (s : State) (r : Nat) (key : String) (val : Val)
    (hs : WF s) :
    (∃ s', execCmd (n + 2) s (.assign (.readonly (.obj r)) key val)
        = some (.error Err.readOnly, s') ∧
      s'.heap = s.heap ∧ s'.trace = s.trace ∧ s'.targetMap = s.targetMap) ∧
    (∃ s', execCmd (n + 2) s (.assign (.shallowReadonly (.obj r)) key val)
        = some (.error Err.readOnly, s') ∧
      s'.heap = s.heap ∧ s'.trace = s.trace ∧ s'.targetMap = s.targetMap) := by
  have key_fact : ∀ h : Handler, h.isReadOnly = true ∧ h.setReadOnly = true →
      ∃ s', (match asValue (createReactiveObject s (.obj r) true h) with
          | (.error x, s1) => some (Except.error x, s1)
          | (.ok (.proxy p), s1) =>
            match s1.proxies[p]? with
            | some px => setCreator px.handler.setReadOnly (n + 1) s1 px.target key val
            | none => some (.error Err.typeError, s1)
          | (.ok (.raw .undefined), s1) => some (.error Err.typeError, s1)
          | (.ok (.raw .null), s1) => some (.error Err.typeError, s1)
          | (.ok (.raw (.obj r)), s1) => some (.ok (), reflectSet s1 r key val)
          | (.ok (.raw _), s1) => some (.ok (), s1)) = some (.error Err.readOnly, s') ∧
        s'.heap = s.heap ∧ s'.trace = s.trace ∧ s'.targetMap = s.targetMap := by
    intro h hh
    obtain ⟨p, h1, h2, h3, h4, h5, _⟩ := createReactiveObject_obj s r true h
    have hw : WF (createReactiveObject s (.obj r) true h).2 :=
      WF_createReactiveObject _ _ true h (by simpa using hh) hs
    obtain ⟨h', h6, _, h7⟩ := hw.readOnlyCache r p h2
    refine ⟨(createReactiveObject s (.obj r) true h).2, ?_, h3, h4, h5⟩
    rw [h1]
    simp only [asValue, h6, h7, setCreator, if_true]
  constructor
  · simpa only [execCmd, evalExpr, readonly] using
      key_fact readOnlyHandler (by simp [readOnlyHandler])
  · simpa only [execCmd, evalExpr, shallowReadonly] using
      key_fact shallowReadOnlyHandler (by simp [shallowReadOnlyHandler])

/-- The read-only write at field `a` of object 0 of the example heap. -/
theorem readonly_write_fails_witness :
    WF (State.init exampleHeap) ∧
    ∃ s', execCmd 2 (State.init exampleHeap) (.assign (.readonly (.obj 0)) "a" (.num 9))
        = some (.error Err.readOnly, s') ∧
      s'.heap = exampleHeap ∧ s'.trace = [] ∧ s'.targetMap = [] :=
  ⟨WF_init exampleHeap,
   (readonly_write_fails 0 (State.init exampleHeap) 0 "a" (.num 9) (WF_init exampleHeap)).1⟩

/-- C8 (as stated, refuted): `reactive`, `readonly` and `shallowReadonly` reject an
array, which is a composite value. -/
theorem wrap_rejects_array :
    reactive (State.init []) (.arr 0) = (.error Err.invalidTarget, State.init []) ∧
    readonly (State.init []) (.arr 0) = (.error Err.invalidTarget, State.init []) ∧
    shallowReadonly (State.init []) (.arr 0) = (.error Err.invalidTarget, State.init []) :=
  ⟨rfl, rfl, rfl⟩

/-- C8 (amended): each of `reactive`, `readonly` and `shallowReadonly`
(`createReactiveObject` with any cache and handler) fails exactly when the target
is not a plain object; then it raises the invalid-target error and leaves the state,
wrappers and caches included, as it was; a plain object is wrapped and its wrapper
is in the cache afterwards. -/
theorem wrap_fails_iff_not_plain_object (s : State) (target : Val) (isReadOnly : Bool)
    (h : Handler) :
    ((∃ x, (createReactiveObject s target isReadOnly h).1 = .error x) ↔ isObject target = false) ∧
    (isObject target = false →
      createReactiveObject s target isReadOnly h = (.error Err.invalidTarget, s)) ∧
    (isObject target = true → ∃ r p, target = .obj r ∧
      (createReactiveObject s target isReadOnly h).1 = .ok p ∧
      (if isReadOnly then (createReactiveObject s target isReadOnly h).2.readOnlyMap
        else (createReactiveObject s target isReadOnly h).2.reactiveMap).lookup r = some p) := by
  have hno : isObject target = false →
      createReactiveObject s target isReadOnly h = (.error Err.invalidTarget, s) := by
    intro ho
    unfold createReactiveObject
    simp [ho]
  have hyes : isObject target = true → ∃ r p, target = .obj r ∧
      (createReactiveObject s target isReadOnly h).1 = .ok p ∧
      (if isReadOnly then (createReactiveObject s target isReadOnly h).2.readOnlyMap
        else (createReactiveObject s target isReadOnly h).2.reactiveMap).lookup r = some p := by
    intro ho
    cases target with
    | obj r =>
      obtain ⟨p, h1, h2, _⟩ := createReactiveObject_obj s r isReadOnly h
      exact ⟨r, p, rfl, by rw [h1], h2⟩
    | _ => simp [isObject, toStringTag] at ho
  refine ⟨⟨?_, ?_⟩, hno, hyes⟩
  · rintro ⟨x, hx⟩
    by_contra hcon
    have ho : isObject target = true := by simpa using hcon
    obtain ⟨r, p, _, h1, _⟩ := hyes ho
    rw [h1] at hx
    exact Except.noConfusion hx
  · intro ho
    exact ⟨Err.invalidTarget, by rw [hno ho]⟩

/-- The amended statement at an array and at object 0 in a fresh module. -/
theorem wrap_fails_iff_not_plain_object_witness :
    createReactiveObject (State.init exampleHeap) (.arr 3) false reactiveHandler
      = (.error Err.invalidTarget, State.init exampleHeap) ∧
    ∃ r p, Val.obj 0 = .obj r ∧
      (createReactiveObject (State.init exampleHeap) (.obj 0) true readOnlyHandler).1 = .ok p ∧
      (if true then
          (createReactiveObject (State.init exampleHeap) (.obj 0) true readOnlyHandler).2.readOnlyMap
        else
          (createReactiveObject (State.init exampleHeap) (.obj 0) true readOnlyHandler).2.reactiveMap).lookup
        r = some p :=
  ⟨(wrap_fails_iff_not_plain_object (State.init exampleHeap) (.arr 3) false reactiveHandler).2.1
      (by decide),
   (wrap_fails_iff_not_plain_object (State.init exampleHeap) (.obj 0) true readOnlyHandler).2.2
      (by decide)⟩

/-- C9 (as stated, refuted): the effect reads `b` and, only while `b` is truthy,
`a`.  After `b` is set to 0 its most recent run reads `b` alone, yet it is still
registered under `(0, a)`. -/
theorem stale_registration_stays :
    observe (execBlock 20 (State.init exampleHeap)
        [.effect [.ite (.get (.reactive (.obj 0)) "b") [.eval (.get (.reactive (.obj 0)) "a")] []]
          false none,
         .assign (.reactive (.obj 0)) "b" (.num 0)])
      = some (Observation.mk none
          [.fn 0, .read (some 0) 0 "b" false, .read (some 0) 0 "a" false,
            .write 0 "b" (.num 0), .fn 0, .read (some 0) 0 "b" false]
          [(0, [("b", [0]), ("a", [0])])]
          [(0, [("a", .num 1), ("b", .num 0), ("n", .obj 1)]), (1, [("x", .num 7)])]) := by
  decide!

/-- C9 (amended): in every state reached by running code in a freshly loaded module,
an effect is registered under `(target, key)` exactly when it read that field,
through a `get` trap not built read-only and while it was the active effect, during
some execution so far; and no code run afterwards removes the registration. -/
theorem registered_iff_read (heap : List (Nat × Fields)) (n : Nat) (prog : List Cmd)
    (r : Except Err Unit) (s : State) (h : execBlock n (State.init heap) prog = some (r, s))
    (e target : Nat) (key : String) :
    (e ∈ depOf s target key ↔ Event.read (some e) target key false ∈ s.trace) ∧
    (∀ n2 prog2 r2 s2, execBlock n2 s prog2 = some (r2, s2) → e ∈ depOf s target key →
      e ∈ depOf s2 target key) :=
  ⟨(WF_exec n _ prog r s h (WF_init heap)).log e target key,
   fun n2 prog2 r2 s2 h2 hx => exec_deps_mono n2 s prog2 r2 s2 h2 e target key hx⟩

/-- The registration invariant at the end of a run that creates an effect reading
field `a` of object 0 and then writes that field. -/
theorem registered_iff_read_witness :
    ∃ r s, execBlock 20 (State.init exampleHeap)
        [.effect [.eval (.get (.reactive (.obj 0)) "a")] false none,
         .assign (.reactive (.obj 0)) "a" (.num 5)] = some (r, s) ∧
      (0 ∈ depOf s 0 "a" ↔ Event.read (some 0) 0 "a" false ∈ s.trace) := by
  have h1 : (execBlock 20 (State.init exampleHeap)
      [.effect [.eval (.get (.reactive (.obj 0)) "a")] false none,
       .assign (.reactive (.obj 0)) "a" (.num 5)]).isSome = true := by decide!
  cases hx : execBlock 20 (State.init exampleHeap)
      [.effect [.eval (.get (.reactive (.obj 0)) "a")] false none,
       .assign (.reactive (.obj 0)) "a" (.num 5)] with
  | none =>
    rw [hx] at h1
    exact Bool.noConfusion h1
  | some res =>
    exact ⟨res.1, res.2, rfl, (registered_iff_read exampleHeap 20 _ res.1 res.2 hx 0 0 "a").1⟩

/-- C10: for a tag-name string `createVNode` sets ELEMENT and leaves
STATEFUL_COMPONENT clear, for a component-definition object it sets
STATEFUL_COMPONENT and leaves ELEMENT clear; in both cases string children set
TEXT_CHILD only, sequence children set ARRAY_CHILD only, and a mapping of named
slots sets neither.  The four bits are listed in the order ELEMENT,
STATEFUL_COMPONENT, TEXT_CHILD, ARRAY_CHILD. -/
theorem createVNode_shapeFlag (tag : String) (r : Nat) (props : Option Fields)
    (txt : String) (cs : List VNode) (m : List (String × Slot)) :
    shapeBits (createVNode (.str tag) props (.text txt)) = (true, false, true, false) ∧
    shapeBits (createVNode (.str tag) props (.array cs)) = (true, false, false, true) ∧
    shapeBits (createVNode (.str tag) props (.slots m)) = (true, false, false, false) ∧
    shapeBits (createVNode (.obj r) props (.text txt)) = (false, true, true, false) ∧
    shapeBits (createVNode (.obj r) props (.array cs)) = (false, true, false, true) ∧
    shapeBits (createVNode (.obj r) props (.slots m)) = (false, true, false, false) := by
  simp [shapeBits, createVNode, getShapeFlag, isObject, isString, toStringTag,
    Children.isString, Children.isArray, Children.toStringTag, VNode.shapeFlag, hasFlag, jsOr,
    jsAnd, ShapeFlags.ELEMENT, ShapeFlags.STATEFUL_COMPONENT, ShapeFlags.TEXT_CHILD,
    ShapeFlags.ARRAY_CHILD]
  decide

/-- C11 (code at the failing input): the current instance provides the falsy value
`0` under `k` and its parent provides `5`; `inject` skips the nearest value and
returns the parent's `5`, and with no parent it returns `null` although the current
instance holds `k`. -/
theorem inject_skips_falsy_value :
    inject (provide (setCurrentInstance RenderState.init
        (some (createComponentInstance (createVNode (.obj 1) none .undefined)
          ((provide (setCurrentInstance RenderState.init
            (some (createComponentInstance (createVNode (.obj 0) none .undefined) none)))
            "k" (.num 5)).currentInstance)))) "k" (.num 0)) "k" = .num 5 ∧
    inject (provide (setCurrentInstance RenderState.init
        (some (createComponentInstance (createVNode (.obj 1) none .undefined) none)))
        "k" (.num 0)) "k" = .null := by
  constructor <;> rfl

/-- C12 (code at the failing input): with `props.close` the string `yes`, present
and truthy but not callable, `emit` raises a `TypeError`. -/
theorem emit_non_callable_prop :
    emit (initComponentProps (createComponentInstance (createVNode (.obj 0) none .undefined) none)
      (some [("close", .str "yes")])) "close" = .error Err.typeError := by
  rfl

/-- C13 (code at the failing input): for a definition with a `render` function and
no `setup`, `setupComponent` succeeds and leaves the instance's `render` unset. -/
theorem setupComponent_without_setup_render_unset :
    (setupComponent (fun _ => renderOnly) RenderState.init
      (createComponentInstance (createVNode (.obj 0) none .undefined) none)).2.2.render = none := by
  rfl

/-- C14 (code at the failing inputs): mounting a component whose definition has a
`setup` but no `render`, and one whose definition has a `render` but no `setup`,
both end in a `TypeError`. -/
theorem mount_without_render_or_setup_throws :
    (∃ s, patch asciiHost (fun _ => setupOnly) 4 RenderState.init (createVNode (.obj 0) none .undefined) (.node 0) none
        = some (.error Err.typeError, s)) ∧
    (∃ s, patch asciiHost (fun _ => renderOnly) 4 RenderState.init (createVNode (.obj 0) none .undefined) (.node 0) none
        = some (.error Err.typeError, s)) :=
  ⟨⟨_, rfl⟩, ⟨_, rfl⟩⟩

/-- C15 (code at the failing input): when `setup` throws, `setupComponent` ends with
that error and `currentInstance` still points at the instance. -/
theorem setupComponent_throw_keeps_currentInstance :
    (setupComponent (fun _ => throwingSetup) RenderState.init
      (createComponentInstance (createVNode (.obj 7) none .undefined) none)).1
        = .error (Err.user 0) ∧
    (getCurrentInstance (setupComponent (fun _ => throwingSetup) RenderState.init
      (createComponentInstance (createVNode (.obj 7) none .undefined) none)).2.1).map
        (fun i => i.type) = some (.obj 7) := by
  constructor <;> rfl

/-- C16 (code at the failing input): the bundle binds no `h`, so in a host whose
global object has no property `h` every call of `renderSlots` raises a
`ReferenceError`, whatever the slots mapping, the name and the slot props: for the
callable slot `header` of the example mapping, which is not called, for its sequence
`body`, for its single vnode `footer` and for a name it does not hold.  Where the
global object holds the bundle's builder under `h`, the call on `header` returns the
Fragment vnode whose children are the one-element sequence with the slot's result. -/
theorem renderSlots_unbound_h :
    (∀ (slots : List (String × Slot)) (name : String) (prop : Val),
      renderSlots none slots name prop = .error Err.referenceError) ∧
    renderSlots none exampleSlots "header" (.num 1) = .error Err.referenceError ∧
    renderSlots none exampleSlots "body" (.num 1) = .error Err.referenceError ∧
    renderSlots none exampleSlots "footer" (.num 1) = .error Err.referenceError ∧
    renderSlots none exampleSlots "other" (.num 1) = .error Err.referenceError ∧
    renderSlots (some h1) exampleSlots "header" (.num 1)
      = .ok (createVNode Fragment (some []) (.array [createTextVNode "t"])) := by
  refine ⟨?_, rfl, rfl, rfl, rfl, rfl⟩
  intro slots name prop
  unfold renderSlots
  cases slotGet slots name with
  | none => rfl
  | some sl => cases sl <;> rfl

/-- C17 (as stated, refuted): `h('div', {id:'a', onClick: fn}, 'hi')` mounted into a
container given as the lookup string `#app`.  In a document where the lookup finds
node 9 the mount issues six operations, a query for the node before the append;
in a document where it finds nothing the mount ends in a `TypeError` after the query
and appends nothing. -/
theorem mountElement_selector_container :
    (∃ s1, patch documentHost (fun _ => renderOnly) 3 RenderState.init
        (h1 (.str "div") (some [("id", .str "a"), ("onClick", .func 0)]) (.text "hi"))
        (.selector "#app") none = some (.ok (some 0), s1) ∧
      s1.ops = [.createElement (.str "div") 0, .setAttribute 0 "id" (.str "a"),
        .addEventListener 0 "click" (.func 0), .setTextContent 0 (.text "hi"),
        .querySelector "#app", .appendChild 9 0]) ∧
    (∃ s1, patch asciiHost (fun _ => renderOnly) 3 RenderState.init
        (h1 (.str "div") (some [("id", .str "a"), ("onClick", .func 0)]) (.text "hi"))
        (.selector "#app") none = some (.error Err.typeError, s1) ∧
      s1.ops = [.createElement (.str "div") 0, .setAttribute 0 "id" (.str "a"),
        .addEventListener 0 "click" (.func 0), .setTextContent 0 (.text "hi"),
        .querySelector "#app"]) :=
  ⟨⟨_, rfl, rfl⟩, ⟨_, rfl, rfl⟩⟩

/-- C17 (amended): mounting the element vnode `createVNode(tag, props, text)` first
issues one create-element, then one operation per prop in enumeration order
(add-event-listener with the lower-cased key less its first two characters when
`isOn` accepts the key, set-attribute otherwise), then one set-text-content.  After
these, into a container given as a surface node it issues one append-child to that
node and completes; into a container given as a lookup string it issues one query
and then, when the query finds a node, one append-child to the node found, and when
it finds none it ends in a `TypeError` and appends nothing.  No other operation is
issued.  `h('div', {id:'a', onClick: fn}, 'hi')` mounted into a surface node gives
attribute `id=a`, a `click` listener `fn` and text `hi`. -/
theorem mountElement_ops (host : Host) (defs : Nat → Component) (n : Nat) (s : RenderState)
    (tag : String) (props : Option Fields) (txt : String) (parent : Option ComponentInstance) :
    (∃ ops, ops = s.ops ++ [.createElement (.str tag) s.nextEl]
        ++ (props.getD []).map (fun kv =>
            if isOn kv.1 then
              SurfaceOp.addEventListener s.nextEl
                (host.toLowerCase (String.mk (kv.1.data.drop 2))) kv.2
            else SurfaceOp.setAttribute s.nextEl kv.1 kv.2)
        ++ [.setTextContent s.nextEl (.text txt)] ∧
      (∀ c : El,
        patch host defs (n + 3) s (createVNode (.str tag) props (.text txt)) (.node c) parent
          = some (.ok (some s.nextEl),
              { s with ops := ops ++ [.appendChild c s.nextEl], nextEl := s.nextEl + 1 })) ∧
      (∀ (sel : String) (c : El), host.querySelector sel = some c →
        patch host defs (n + 3) s (createVNode (.str tag) props (.text txt)) (.selector sel)
            parent = some (.ok (some s.nextEl),
              { s with ops := ops ++ [.querySelector sel, .appendChild c s.nextEl],
                       nextEl := s.nextEl + 1 })) ∧
      (∀ sel : String, host.querySelector sel = none →
        patch host defs (n + 3) s (createVNode (.str tag) props (.text txt)) (.selector sel)
            parent = some (.error Err.typeError,
              { s with ops := ops ++ [.querySelector sel], nextEl := s.nextEl + 1 }))) ∧
    (∃ s1, patch asciiHost defs 3 RenderState.init
        (h1 (.str "div") (some [("id", .str "a"), ("onClick", .func 0)]) (.text "hi")) (.node 9) none
          = some (.ok (some 0), s1) ∧
      s1.ops = [.createElement (.str "div") 0, .setAttribute 0 "id" (.str "a"),
        .addEventListener 0 "click" (.func 0), .setTextContent 0 (.text "hi"),
        .appendChild 9 0]) := by
  refine ⟨⟨_, rfl, ?_, ?_, ?_⟩, ⟨_, rfl, rfl⟩⟩
  · intro c
    simp [patch, processElement, mountElement, createVNode, getShapeFlag, isObject, isString,
      toStringTag, Children.isString, Children.isArray, Children.toStringTag, VNode.shapeFlag,
      VNode.type, VNode.props, VNode.children, jsOr, jsAnd, Fragment, Text, appendTo, propOp,
      ShapeFlags.ELEMENT, ShapeFlags.STATEFUL_COMPONENT, ShapeFlags.TEXT_CHILD,
      ShapeFlags.ARRAY_CHILD]
  · intro sel c hq
    simp [patch, processElement, mountElement, createVNode, getShapeFlag, isObject, isString,
      toStringTag, Children.isString, Children.isArray, Children.toStringTag, VNode.shapeFlag,
      VNode.type, VNode.props, VNode.children, jsOr, jsAnd, Fragment, Text, appendTo, propOp,
      ShapeFlags.ELEMENT, ShapeFlags.STATEFUL_COMPONENT, ShapeFlags.TEXT_CHILD,
      ShapeFlags.ARRAY_CHILD, hq]
  · intro sel hq
    simp [patch, processElement, mountElement, createVNode, getShapeFlag, isObject, isString,
      toStringTag, Children.isString, Children.isArray, Children.toStringTag, VNode.shapeFlag,
      VNode.type, VNode.props, VNode.children, jsOr, jsAnd, Fragment, Text, appendTo, propOp,
      ShapeFlags.ELEMENT, ShapeFlags.STATEFUL_COMPONENT, ShapeFlags.TEXT_CHILD,
      ShapeFlags.ARRAY_CHILD, hq]

/-- The three kinds of container at the vnode `h('p', undefined, 'x')`: the surface
node 4, the lookup string `#app` in a document that holds node 9 under it, and the
same string in a document that holds nothing. -/
theorem mountElement_ops_witness :
    patch documentHost (fun _ => renderOnly) 3 RenderState.init
        (createVNode (.str "p") none (.text "x")) (.node 4) none
      = some (.ok (some 0), { RenderState.init with
          ops := [.createElement (.str "p") 0, .setTextContent 0 (.text "x"), .appendChild 4 0],
          nextEl := 1 }) ∧
    documentHost.querySelector "#app" = some 9 ∧
    patch documentHost (fun _ => renderOnly) 3 RenderState.init
        (createVNode (.str "p") none (.text "x")) (.selector "#app") none
      = some (.ok (some 0), { RenderState.init with
          ops := [.createElement (.str "p") 0, .setTextContent 0 (.text "x"),
            .querySelector "#app", .appendChild 9 0],
          nextEl := 1 }) ∧
    asciiHost.querySelector "#app" = none ∧
    patch asciiHost (fun _ => renderOnly) 3 RenderState.init
        (createVNode (.str "p") none (.text "x")) (.selector "#app") none
      = some (.error Err.typeError, { RenderState.init with
          ops := [.createElement (.str "p") 0, .setTextContent 0 (.text "x"),
            .querySelector "#app"],
          nextEl := 1 }) := by
  obtain ⟨ops, hops, h1, h2, _⟩ :=
    (mountElement_ops documentHost (fun _ => renderOnly) 0 RenderState.init "p" none "x" none).1
  obtain ⟨ops2, hops2, _, _, h3⟩ :=
    (mountElement_ops asciiHost (fun _ => renderOnly) 0 RenderState.init "p" none "x" none).1
  subst hops
  subst hops2
  exact ⟨h1 4, rfl, h2 "#app" 9 rfl, rfl, h3 "#app" rfl⟩

/-- C18: a read through the public-access proxy yields the `setupState` value when
the key is an own key of `setupState` (also when `props` has the key too), else the
`props` value when the key is an own key of `props`, else the vnode's `el` for `$el`
and the instance's slots for `$slots`. -/
theorem instanceProxyGet_order (inst : ComponentInstance) (key : String) :
    (hasOwnProperty inst.setupState key = true →
      instanceProxyGet inst key = .val (inst.setupState.get key)) ∧
    (hasOwnProperty inst.setupState key = false → hasOwnProperty inst.props key = true →
      instanceProxyGet inst key = .val (inst.props.get key)) ∧
    (hasOwnProperty inst.setupState key = false → hasOwnProperty inst.props key = false →
      key = "$el" → instanceProxyGet inst key = .el inst.vnode.el) ∧
    (hasOwnProperty inst.setupState key = false → hasOwnProperty inst.props key = false →
      key = "$slots" → instanceProxyGet inst key = .slots inst.slots) := by
  refine ⟨?_, ?_, ?_, ?_⟩
  · intro h1
    simp [instanceProxyGet, h1]
  · intro h1 h2
    simp [instanceProxyGet, h1, h2]
  · intro h1 h2 hk
    subst hk
    simp [instanceProxyGet, h1, h2]
  · intro h1 h2 hk
    subst hk
    simp [instanceProxyGet, h1, h2]

/-- The resolution order at a concrete instance whose `setupState` and `props` both
hold `a`, whose `props` alone hold `b`, and whose vnode is mounted at handle 3. -/
theorem instanceProxyGet_order_witness :
    instanceProxyGet { createComponentInstance ((createVNode (.obj 0) none .undefined).setEl (some 3)) none
      with setupState := [("a", .num 1)], props := [("a", .num 2), ("b", .num 3)] } "a"
        = .val (.num 1) ∧
    instanceProxyGet { createComponentInstance ((createVNode (.obj 0) none .undefined).setEl (some 3)) none
      with setupState := [("a", .num 1)], props := [("a", .num 2), ("b", .num 3)] } "b"
        = .val (.num 3) ∧
    instanceProxyGet { createComponentInstance ((createVNode (.obj 0) none .undefined).setEl (some 3)) none
      with setupState := [("a", .num 1)], props := [("a", .num 2), ("b", .num 3)] } "$el"
        = .el (some 3) ∧
    instanceProxyGet { createComponentInstance ((createVNode (.obj 0) none .undefined).setEl (some 3)) none
      with setupState := [("a", .num 1)], props := [("a", .num 2), ("b", .num 3)] } "$slots"
        = .slots [] :=
  ⟨(instanceProxyGet_order _ "a").1 (by decide),
   (instanceProxyGet_order _ "b").2.1 (by decide) (by decide),
   (instanceProxyGet_order _ "$el").2.2.1 (by decide) (by decide) rfl,
   (instanceProxyGet_order _ "$slots").2.2.2 (by decide) (by decide) rfl⟩

/-- C19 (as stated, refuted): an effect with a scheduler reads `reactive(0).n.x`; a
later write to `x` through `reactive(0).n` calls the scheduler and does not start
the effect's computation again. -/
theorem nested_write_does_not_rerun_scheduled :
    observe (execBlock 20 (State.init exampleHeap)
        [.effect [.eval (.get (.get (.reactive (.obj 0)) "n") "x")] false (some []),
         .assign (.get (.reactive (.obj 0)) "n") "x" (.num 5)])
      = some (Observation.mk none
          [.fn 0, .read (some 0) 0 "n" false, .read (some 0) 1 "x" false,
            .read none 0 "n" false, .write 1 "x" (.num 5), .scheduler 0]
          [(0, [("n", [0])]), (1, [("x", [0])])]
          [(0, [("a", .num 1), ("b", .num 2), ("n", .obj 1)]), (1, [("x", .num 5)])]) := by
  decide!

/-- C19 (amended): in a state satisfying the invariant let field `a` of the plain
object `target` hold the plain object `nested`.  (1) An effect without scheduler
whose computation reads `reactive(target).a.b`, called while not on the stack,
completes normally and is then registered under `(target, a)` and `(nested, b)`.
(2) The value of `reactive(target).a` is the wrapper `reactive(nested)` returns, a
`Proxy` over `nested` with the mutable handler.  (3) In any later such state in
which that effect is registered under `(nested, b)` by such a read, a write to `b`
through `reactive(target).a` comes to an end and starts the effect's computation at
most once, exactly once when no error ends the write, provided the effects
registered under `(nested, b)` perform no writes, and the write is made while no
effect is current or `(target, a)` is not the same field as `(nested, b)`. -/
theorem nested_read_registers_write_reruns (s : State) (target nested : Nat) (a b : String)
    (e : Nat) (hs : WF s) (hheap : reflectGet s target a = .obj nested)
    (heff : s.effects[e]? = some (ReactiveEffect.mk
      [.eval (.get (.get (.reactive (.obj target)) a) b)] none))
    (hstack : e ∉ s.reactivrEffectStack) :
    (∀ n, ∃ s', reactiveEffect (n + 3) s e = some (.ok (), s') ∧
      e ∈ depOf s' target a ∧ e ∈ depOf s' nested b) ∧
    (∃ q s1, evalExpr s (.get (.reactive (.obj target)) a) = (.ok (.proxy q), s1) ∧
      reactive s1 (.obj nested) = (.ok q, s1) ∧
      s1.proxies[q]? = some { target := nested, handler := reactiveHandler }) ∧
    (∀ (s2 : State) (val : Val), WF s2 → reflectGet s2 target a = .obj nested →
      s2.effects[e]? = some (ReactiveEffect.mk
        [.eval (.get (.get (.reactive (.obj target)) a) b)] none) →
      e ∉ s2.reactivrEffectStack →
      Event.read (some e) nested b false ∈ s2.trace →
      (∀ x ∈ depOf s2 nested b, Observer s2.effects x) →
      (s2.currentReactiveEffect = none ∨ target ≠ nested ∨ a ≠ b) →
      ∃ N, ∀ n, N ≤ n → ∃ r s', execCmd n s2 (.assign (.get (.reactive (.obj target)) a) b val)
          = some (r, s') ∧
        fnCount s' e ≤ fnCount s2 e + 1 ∧ (r = .ok () → fnCount s' e = fnCount s2 e + 1)) := by
  refine ⟨?_, ?_, ?_⟩
  · intro n
    have hc : s.reactivrEffectStack.contains e = false := by simpa using hstack
    have hwa : WF (enterEffect s e) := WF_enterEffect s e hs
    have hheapa : reflectGet (enterEffect s e) target a = .obj nested := hheap
    obtain ⟨q, s1, h1, h2, h3, h4, h5, h6, h7⟩ :=
      eval_get_reactive_obj (enterEffect s e) target a nested hwa hheapa
    obtain ⟨v, hv⟩ := getCreator_ok false s1 nested b
    have hw2 : WF (getCreator false false s1 nested b).2 := WF_getCreator _ _ _ _ _ h2
    have hev : evalExpr (enterEffect s e) (.get (.get (.reactive (.obj target)) a) b)
        = (.ok v, (getCreator false false s1 nested b).2) := by
      rw [evalExpr, h1]
      simp only [h5, reactiveHandler]
      exact hv
    have hcur1 : s1.currentReactiveEffect = some e := h3.2.2.2.1
    have htr : (getCreator false false s1 nested b).2.trace
        = (s.trace ++ [.fn e]) ++ [.read (some e) target a false]
          ++ [.read (some e) nested b false] := by
      rw [getCreator_trace, h6, hcur1]
      rfl
    refine ⟨leaveEffect (getCreator false false s1 nested b).2, ?_, ?_, ?_⟩
    · simp only [reactiveEffect, hc, Bool.false_eq_true, if_false, heff, execBlock, execCmd, hev]
    · show e ∈ depOf (getCreator false false s1 nested b).2 target a
      rw [hw2.log, htr]
      simp
    · show e ∈ depOf (getCreator false false s1 nested b).2 nested b
      rw [hw2.log, htr]
      simp
  · obtain ⟨q, s1, h1, _, _, h4, h5, _, _⟩ := eval_get_reactive_obj s target a nested hs hheap
    exact ⟨q, s1, h1, h4, h5⟩
  · intro s2 val hs2 hheap2 heff2 hstack2 hread hobs hne
    obtain ⟨q, s1, h1, h2, h3, h4, h5, h6, h7⟩ :=
      eval_get_reactive_obj s2 target a nested hs2 hheap2
    have hdep : depOf s1 nested b = depOf s2 nested b := by
      rw [depOf_congr s1 (Track s2 target a) h7, depOf_Track]
      cases hcur : s2.currentReactiveEffect with
      | none => rfl
      | some c =>
        simp only
        have : ¬ (nested = target ∧ b = a) := by
          rintro ⟨h8, h9⟩
          rcases hne with h | h | h
          · rw [hcur] at h
            exact Option.noConfusion h
          · exact h h8.symm
          · exact h h9.symm
        rw [if_neg this]
    have hreg : e ∈ depOf s2 nested b := (hs2.log e nested b).mpr hread
    obtain ⟨N, hN⟩ := setCreator_quiet s1 nested b val (by
      intro x hx
      rw [hdep] at hx
      rw [h3.2.1, h3.2.2.1]
      exact Or.inl (hobs x hx))
    refine ⟨N + 1, fun n hn => ?_⟩
    obtain ⟨m, rfl⟩ : ∃ m, n = m + 1 := ⟨n - 1, by omega⟩
    obtain ⟨r, s', g1, g2, g3, g4, g5, g6⟩ := hN m (by omega)
    refine ⟨r, s', ?_, ?_, ?_⟩
    · simp only [execCmd, h1, h5, reactiveHandler]
      exact g1
    · have := g4 e
      rw [hdep, if_pos hreg, h3.2.2.2.2 e] at this
      exact this
    · intro hr
      have := g6 hr e _ (by rw [h3.2.1]; exact heff2) rfl (by rw [h3.2.2.1]; exact hstack2)
        (by rw [hdep]; exact hreg)
      rw [h3.2.2.2.2 e] at this
      exact this

/-- The nested read and the nested write at objects 0 and 1 of the example heap. -/
theorem nested_read_registers_write_reruns_witness :
    (∃ s', reactiveEffect 3 exampleNested 0 = some (.ok (), s') ∧
      0 ∈ depOf s' 0 "n" ∧ 0 ∈ depOf s' 1 "x") ∧
    (∃ q s1, evalExpr exampleNested (.get (.reactive (.obj 0)) "n") = (.ok (.proxy q), s1) ∧
      reactive s1 (.obj 1) = (.ok q, s1) ∧
      s1.proxies[q]? = some { target := 1, handler := reactiveHandler }) ∧
    ∃ N, ∀ n, N ≤ n → ∃ r s',
      execCmd n exampleNestedTracked (.assign (.get (.reactive (.obj 0)) "n") "x" (.num 5))
        = some (r, s') ∧
      fnCount s' 0 ≤ fnCount exampleNestedTracked 0 + 1 ∧
      (r = .ok () → fnCount s' 0 = fnCount exampleNestedTracked 0 + 1) :=
  have h := nested_read_registers_write_reruns exampleNested 0 1 "n" "x" 0
    ⟨(WF_init exampleHeap).current, (WF_init exampleHeap).reactiveCache,
      (WF_init exampleHeap).readOnlyCache, (WF_init exampleHeap).log⟩
    (by decide) rfl (by decide)
  ⟨h.1 0, h.2.1,
   h.2.2 exampleNestedTracked (.num 5) WF_exampleNestedTracked (by decide) rfl (by decide)
    (by decide)
    (by
      intro x hx
      have hx0 : x = 0 := by simpa [exampleNestedTracked, depOf, List.lookup] using hx
      subst hx0
      exact ⟨_, rfl, NoWrites.eval _ NoWrites.nil, fun sc h => Option.noConfusion h⟩)
    (Or.inr (Or.inl (by decide)))⟩

/-- C20 (code at the failing inputs): a parent component provides `k = 5` and its
render returns a child component inside an element's children, inside a Fragment's
children, or as the subtree root.  Only in the last case does the child's instance
get the parent instance as `parent` and its `inject('k')` the value 5; in the first
two its `parent` is `undefined` and `inject('k')` returns `null`. -/
theorem nested_component_parent_undefined :
    (∃ r s, patch asciiHost
        (familyDefs (h1 (.str "div") none (.array [h1 (.obj 1) none .undefined])))
        20 RenderState.init (createVNode (.obj 0) none .undefined) (.node 0) none = some (.ok r, s) ∧
      mountedSummary s = [(.obj 0, none, .undefined), (.obj 1, none, .null)]) ∧
    (∃ r s, patch asciiHost
        (familyDefs (h1 Fragment none (.array [h1 (.obj 1) none .undefined])))
        20 RenderState.init (createVNode (.obj 0) none .undefined) (.node 0) none = some (.ok r, s) ∧
      mountedSummary s = [(.obj 0, none, .undefined), (.obj 1, none, .null)]) ∧
    (∃ r s, patch asciiHost (familyDefs (h1 (.obj 1) none .undefined))
        20 RenderState.init (createVNode (.obj 0) none .undefined) (.node 0) none = some (.ok r, s) ∧
      mountedSummary s = [(.obj 0, none, .undefined), (.obj 1, some (.obj 0), .num 5)]) :=
  ⟨⟨_, _, rfl, by decide⟩, ⟨_, _, rfl, by decide⟩, ⟨_, _, rfl, by decide⟩⟩

end Echo
